import Mathlib

/-
  Verification of the co-defi/api-server event-sourced domain core.

  The Go source is shallowly embedded: Go structs become Lean structures,
  Go maps become association lists built by an overwrite-or-append update
  (matching Go map assignment), Go slices become lists, Go float64 values
  (only ever copied, compared for equality, or range-checked in this
  codebase) become exact rationals, and time.Time values become integer
  timestamps.  Command handlers are pure functions of the command plus an
  environment record carrying the results of their I/O calls (plan lookup,
  read-model query, aggregate load, save outcome).
-/

namespace CoDefi

/-- Go type `domain.Asset = string`. -/
abbrev Asset := String

/-- Go type `domain.Address = string`. -/
abbrev Address := String

/-- Go type `domain.TxHash = string`. -/
abbrev TxHash := String

/-- Go `float64` fields of this codebase; they are only copied, compared
for equality, or range-checked, so they are modelled as exact rationals. -/
abbrev GoFloat := Rat

/-- Rational 0.1 given in normal form, so that kernel evaluation of
concrete inputs never runs the gcd normalization. -/
def ratTenth : GoFloat := ⟨1, 10, by decide, Nat.coprime_one_left 10⟩

/-- Rational 0.5 given in normal form. -/
def ratHalf : GoFloat := ⟨1, 2, by decide, Nat.coprime_one_left 2⟩

/-- Structural decidable equality for `Except`, needed to evaluate
handler results on concrete inputs. -/
def exceptDecEq {ε α : Type} [DecidableEq ε] [DecidableEq α] :
    (a b : Except ε α) → Decidable (a = b)
  | .error e1, .error e2 =>
    match decEq e1 e2 with
    | isTrue h => isTrue (h ▸ rfl)
    | isFalse h => isFalse fun hh => h (Except.error.inj hh)
  | .error _, .ok _ => isFalse fun hh => Except.noConfusion hh
  | .ok _, .error _ => isFalse fun hh => Except.noConfusion hh
  | .ok x, .ok y =>
    match decEq x y with
    | isTrue h => isTrue (h ▸ rfl)
    | isFalse h => isFalse fun hh => h (Except.ok.inj hh)

instance {ε α : Type} [DecidableEq ε] [DecidableEq α] : DecidableEq (Except ε α) :=
  exceptDecEq

/-- Go map, modelled as an association list with at most one entry per key
when built by `AMap.set` from the empty map. -/
abbrev AMap (α β : Type) := List (α × β)

namespace AMap

/-- Go map read `m[k]` returning `none` when the key is absent. -/
def find? {α β : Type} [DecidableEq α] : AMap α β → α → Option β
  | [], _ => none
  | (k1, v) :: rest, k => if k1 = k then some v else find? rest k

/-- Go map read `m[k]` with the zero value `d` returned for a missing key
(also the behaviour of reading a nil map). -/
def findD {α β : Type} [DecidableEq α] (m : AMap α β) (k : α) (d : β) : β :=
  (find? m k).getD d

/-- Go map assignment `m[k] = v`: overwrite the entry if present, append
it otherwise. -/
def set {α β : Type} [DecidableEq α] : AMap α β → α → β → AMap α β
  | [], k, v => [(k, v)]
  | (k1, v1) :: rest, k, v => if k1 = k then (k1, v) :: rest else (k1, v1) :: set rest k v

end AMap

/-- Go struct `domain.SignedTx` (part_011): a transaction signed by the
participants, with a nonce, raw bytes and a signature. -/
structure SignedTx where
  nonce : Int
  tx : List Nat
  signature : List Nat
deriving DecidableEq, Repr, Inhabited

/-- Go struct `domain.MultisigWallet` (part_011). -/
structure MultisigWallet where
  publicKeys : AMap Asset String := []
  addresses : AMap Asset Address := []
  encryptionKey : String := ""
  hexChainCode : String := ""
deriving DecidableEq, Repr, Inhabited

/-- Go method `MultisigWallet.AreAddressesEqual` (part_011 lines 218-226):
every submitted entry must equal the recorded entry, a missing recorded
entry reading as the zero value `""`. -/
def MultisigWallet.areAddressesEqual (w : MultisigWallet) (addresses : AMap Asset Address) : Bool :=
  addresses.all fun kv => AMap.findD w.addresses kv.1 "" = kv.2

/-- Go type `domain.PairStatus = string`. -/
abbrev PairStatus := String

def PairStatusWaiting : PairStatus := "waiting"
def PairStatusWalletConformation : PairStatus := "wallet_conformation"
def PairStatusAssurance : PairStatus := "assurance"
def PairStatusDeposit : PairStatus := "deposit"
def PairStatusPreSignWithdrawal : PairStatus := "pre_sign_withdrawal"
def PairStatusLP : PairStatus := "lp"
def PairStatusWithdrawn : PairStatus := "withdrawn"
def PairStatusInvalid : PairStatus := "invalid"

/-- Go struct `domain.Pair` (part_011), the aggregate root. Zero values of
the Go struct are the defaults here; `deadline` abstracts `time.Time` as an
integer timestamp. -/
structure Pair where
  status : PairStatus := ""
  assets : List Asset := []
  participantsAddress : AMap Asset Address := []
  shareValue : Int := 0
  investingPeriod : Int := 0
  walletSecurity : String := ""
  profitSharingStrategy : String := ""
  lossProtection : GoFloat := 0
  wallet : Option MultisigWallet := none
  assurances : AMap Asset (List SignedTx) := []
  deposits : AMap Asset TxHash := []
  withdrawTx : Option SignedTx := none
  lp : AMap Asset TxHash := []
  deadline : Int := 0
  withdrawnTx : Option TxHash := none
deriving DecidableEq, Repr, Inhabited

/-- Go event types registered by the Pair aggregate (part_011). -/
inductive PairEvent where
  | pairCreated (participantAsset : Asset) (participantAddress : Address)
      (secondaryAsset : Asset) (shareValue : Int) (investingPeriod : Int)
      (walletSecurity : String) (profitSharingStrategy : String) (lossProtection : GoFloat)
  | pairStatusChanged (status : PairStatus)
  | pairMatched (participantAddress : Address) (walletEncryptionKey : String)
      (walletHexChainCode : String) (keygenMsg : String)
  | walletAddressConfirmed (participantAsset : Asset) (publicKey : String)
      (walletAddresses : AMap Asset Address)
  | assetAssuranceSigned (asset : Asset) (tx : SignedTx)
  | assetDeposited (asset : Asset) (txHash : TxHash)
  | withdrawTxSigned (tx : SignedTx)
  | lpDone (asset : Asset) (txHash : TxHash) (deadline : Int)
  | withdrawn (txHash : TxHash)
deriving DecidableEq, Repr

/-- Go method `Pair.Transition` (part_011 lines 51-137) dispatching to the
apply functions. Two partiality notes: `applyPairMatched` indexes
`p.Assets[1]` (a Go panic when fewer than two assets; modelled with the
zero value `""`), and `applyWalletAddressConfirmed` dereferences `p.Wallet`
(a Go nil-pointer panic when no `PairMatched` was applied; modelled by
acting on the zero wallet). Both situations are unreachable under the
command handlers, which emit these events only on created resp. matched
pairs. -/
def Pair.transition (p : Pair) (e : PairEvent) : Pair :=
  match e with
  | .pairCreated pa paddr sa sv ip ws pss lp =>
      { p with assets := [pa, sa], participantsAddress := [(pa, paddr)],
               shareValue := sv, investingPeriod := ip, walletSecurity := ws,
               profitSharingStrategy := pss, lossProtection := lp }
  | .pairStatusChanged s => { p with status := s }
  | .pairMatched paddr ek hcc _ =>
      { p with wallet := some { publicKeys := [], addresses := [],
                                encryptionKey := ek, hexChainCode := hcc },
               participantsAddress :=
                 AMap.set p.participantsAddress (p.assets.getD 1 "") paddr }
  | .walletAddressConfirmed pa pk waddrs =>
      let w := p.wallet.getD {}
      { p with wallet := some { w with addresses := waddrs,
                                       publicKeys := AMap.set w.publicKeys pa pk } }
  | .assetAssuranceSigned a tx =>
      { p with assurances := AMap.set p.assurances a (AMap.findD p.assurances a [] ++ [tx]) }
  | .assetDeposited a h => { p with deposits := AMap.set p.deposits a h }
  | .withdrawTxSigned tx => { p with withdrawTx := some tx }
  | .lpDone a h d => { p with lp := AMap.set p.lp a h, deadline := d }
  | .withdrawn h => { p with withdrawnTx := some h }

/-- Replay of an event stream from the zero aggregate, as the Go event
repository does on load. -/
def Pair.replay (events : List PairEvent) : Pair :=
  events.foldl Pair.transition {}

/-- Go method `Pair.HasAsset` (part_011). -/
def Pair.hasAsset (p : Pair) (asset : Asset) : Bool :=
  p.assets.any fun a => a = asset

/-- Go method `Pair.HasAssurancesForAsset` (part_011). -/
def Pair.hasAssurancesForAsset (p : Pair) (asset : Asset) : Bool :=
  (AMap.find? p.assurances asset).isSome

/-- Go method `Pair.HasDepositForAsset` (part_011). -/
def Pair.hasDepositForAsset (p : Pair) (asset : Asset) : Bool :=
  (AMap.find? p.deposits asset).isSome

/-- Go method `Pair.HasLPForAsset` (part_011). -/
def Pair.hasLPForAsset (p : Pair) (asset : Asset) : Bool :=
  (AMap.find? p.lp asset).isSome

/-! ## Errors

`common.Error` carries a code, message and optional meta map; command
handlers also return `validator.ValidationErrors`, errors wrapped with
Go fmt wrapping, and errors surfaced from the event repository (load and
save). -/

/-- Load failures of `repo.GetWithContext`:
`eventsourcing.ErrAggregateNotFound` or any other storage error. -/
inductive LoadErr where
  | aggregateNotFound
  | other (msg : String)
deriving DecidableEq, Repr

/-- Save failures of `repo.Save`: the optimistic concurrency conflict of
the event store, or any other storage error. -/
inductive SaveErr where
  | concurrencyConflict
  | other (msg : String)
deriving DecidableEq, Repr

/-- Errors a command handler can return. -/
inductive GoErr where
  | common (code message : String) (meta : List (String × String))
  | validationFailed
  | load (e : LoadErr)
  | save (e : SaveErr)
  | wrap (context : String) (inner : GoErr)
deriving DecidableEq, Repr

/-- Go `common.Error.IncludeMeta`. -/
def GoErr.includeMeta : GoErr → List (String × String) → GoErr
  | .common code message _, meta => .common code message meta
  | e, _ => e

/-- Go `commands.ErrInvalidAssetForPair` (src/app/commands/pair.go line 40). -/
def ErrInvalidAssetForPair : GoErr :=
  .common "invalid_asset_for_pair" "participant asset is not valid for the pair" []

/-- Go `commands.ErrPairNotFound` (src/app/commands/pair.go line 148). -/
def ErrPairNotFound : GoErr := .common "pair_not_found" "pair not found" []

/-- Go `commands.ErrInvalidPairStatus` (src/app/commands/pair.go line 149). -/
def ErrInvalidPairStatus : GoErr :=
  .common "invalid_pair_status" "pair status is not valid for this operation" []

/-- Go `commands.ErrInvalidWalletAddresses` (src/app/commands/pair.go line 150). -/
def ErrInvalidWalletAddresses : GoErr :=
  .common "invalid_wallet_addresses" "wallet addresses are not the same for both participants" []

/-- Go `commands.ErrAlreadySetAssurances` (src/app/commands/pair.go line 220). -/
def ErrAlreadySetAssurances : GoErr :=
  .common "already_set_assurances" "assurances are already set" []

/-- Go `commands.ErrInvalidAssurances` (src/app/commands/pair.go line 270). -/
def ErrInvalidAssurances : GoErr :=
  .common "invalid_assurances" "assurances are not valid" []

/-- Go `commands.ErrAlreadyHasDeposit` (src/app/commands/pair.go line 318). -/
def ErrAlreadyHasDeposit : GoErr :=
  .common "already_has_deposit" "pair already has a deposit for this asset" []

/-- Go `commands.ErrAlreadyHasLP` (src/app/commands/pair.go line 430). -/
def ErrAlreadyHasLP : GoErr :=
  .common "already_has_lp" "pair already has LP transactions for this asset" []

/-! ## Input validation

`common.Validate` applies the go-playground/validator tags declared on the
command structs. The `uuid4` tag matches the validator's lowercase UUIDv4
pattern; `required` on a string means non-empty; `len=2` on a map or slice
means length 2. -/

def isLowerHexDigit (c : Char) : Bool :=
  c.isDigit || (Char.ofNat 97 ≤ c && c ≤ Char.ofNat 102)

/-- Validator tag `uuid4`: 36 characters, hyphens at positions 8, 13, 18
and 23, the character `4` at position 14, a variant character at position
19, lowercase hex elsewhere. -/
def isUuid4 (s : String) : Bool :=
  s.data.length = 36 &&
  (s.data.enum.all fun ic =>
    if ic.1 = 8 || ic.1 = 13 || ic.1 = 18 || ic.1 = 23 then ic.2 = Char.ofNat 45
    else if ic.1 = 14 then ic.2 = Char.ofNat 52
    else if ic.1 = 19 then
      ic.2 = Char.ofNat 56 || ic.2 = Char.ofNat 57 || ic.2 = Char.ofNat 97 || ic.2 = Char.ofNat 98
    else isLowerHexDigit ic.2)

/-! ## Read-model rows

`queries.Plan` and `queries.Pair` are the flat rows materialized by the
plans and pairs projections; only the columns consulted by the command
handlers and by `PairsQuery.Find` are carried. -/

/-- Row of the `plans_query` table as returned by `PlansQuery.Get`. -/
structure PlanRow where
  id : String
  assets : List Asset
  security : String
  strategy : String
  quantum : Int
  lossProtection : GoFloat
  investingPeriod : Int
deriving DecidableEq, Repr

/-- Row of the `pairs_query` table, restricted to the columns that
`PairsQuery.Find` filters on. -/
structure PairRow where
  id : String
  status : PairStatus
  assets : List Asset
  participantAddresses : List Address
  shareValue : Int
  investingPeriod : Int
  walletSecurity : String
  profitSharingStrategy : String
  lossProtection : GoFloat
deriving DecidableEq, Repr

/-- WHERE clause of `PairsQuery.Find` (src/app/queries/pairs.go lines
194-226) applied to one row: equality filters for every supplied optional
argument; for two assets either the exact ordered JSON list comparison or
membership of at least one of the two; for addresses membership of at
least one supplied address. -/
def rowMatches (status? : Option PairStatus) (assets : List Asset) (assetsOrder : Bool)
    (participantAddresses : List Address) (shareValue? : Option Int)
    (investingPeriod? : Option Int) (walletSecurity? : Option String)
    (profitSharingStrategy? : Option String) (lossProtection? : Option GoFloat)
    (r : PairRow) : Bool :=
  (match status? with | some s => r.status = s | none => true) &&
  (if assets.length > 0 then
    if assets.length > 1 then
      if assetsOrder then r.assets = assets
      else r.assets.any fun a => a = assets.getD 0 "" || a = assets.getD 1 ""
    else r.assets.any fun a => a = assets.getD 0 ""
   else true) &&
  (if participantAddresses.length > 0 then
    if participantAddresses.length = 2 then
      r.participantAddresses.any fun a =>
        a = participantAddresses.getD 0 "" || a = participantAddresses.getD 1 ""
    else r.participantAddresses.any fun a => a = participantAddresses.getD 0 ""
   else true) &&
  (match shareValue? with | some v => r.shareValue = v | none => true) &&
  (match investingPeriod? with | some v => r.investingPeriod = v | none => true) &&
  (match walletSecurity? with | some v => r.walletSecurity = v | none => true) &&
  (match profitSharingStrategy? with | some v => r.profitSharingStrategy = v | none => true) &&
  (match lossProtection? with | some v => r.lossProtection = v | none => true)

/-- Go method `PairsQuery.Find` over the materialized table `rows`,
returning the matching rows in table order. -/
def pairsQueryFind (rows : List PairRow) (status? : Option PairStatus) (assets : List Asset)
    (assetsOrder : Bool) (participantAddresses : List Address) (shareValue? : Option Int)
    (investingPeriod? : Option Int) (walletSecurity? : Option String)
    (profitSharingStrategy? : Option String) (lossProtection? : Option GoFloat) :
    List PairRow :=
  rows.filter (rowMatches status? assets assetsOrder participantAddresses shareValue?
    investingPeriod? walletSecurity? profitSharingStrategy? lossProtection?)

/-! ## Command handlers (src/app/commands/pair.go)

Each handler is a pure function of the command and of the results of its
I/O calls: the plan lookup, the pairs read-model table over which
`pairsQuery.Find` runs, the aggregate load (a replay of the stored
events) and the save outcome (`none` means success). On success a handler
returns the id it would return together with the events it tracked, in
order. -/

/-- Go struct `commands.CreateOrMatchPair`. -/
structure CreateOrMatchPair where
  planId : String
  participantAsset : Asset
  participantAddress : Address
deriving DecidableEq, Repr

/-- Validator tags of `CreateOrMatchPair`: `plan_id` required uuid4, both
other fields required. -/
def CreateOrMatchPair.validate (c : CreateOrMatchPair) : Bool :=
  isUuid4 c.planId && c.participantAsset ≠ "" && c.participantAddress ≠ ""

/-- Go helper `containsAsset` (src/app/commands/pair.go lines 108-115). -/
def containsAsset (assets : List Asset) (asset : Asset) : Bool :=
  assets.any fun a => a = asset

/-- Go helper `getSecondaryAsset` (src/app/commands/pair.go lines
117-124): the first listed asset differing from the primary, or `""`. -/
def getSecondaryAsset (primaryAsset : Asset) : List Asset → Asset
  | [] => ""
  | a :: rest => if a ≠ primaryAsset then a else getSecondaryAsset primaryAsset rest

/-- Go method `createOrMatchPairHandler.Handle` (src/app/commands/pair.go
lines 43-106). `planResult` is what `plansQuery.Get` returned, `rows` the
pairs read-model table, `loadPair` the aggregate load, `newId` the fresh
UUID, `saveOutcome` the `repo.Save` result. -/
def createOrMatchPairHandle (planResult : Except GoErr PlanRow) (rows : List PairRow)
    (loadPair : String → Except LoadErr Pair) (newId : String) (saveOutcome : Option SaveErr)
    (cmd : CreateOrMatchPair) : Except GoErr (String × List PairEvent) :=
  if ¬ cmd.validate then .error .validationFailed else
  match planResult with
  | .error e => .error (.wrap "failed to get plan" e)
  | .ok plan =>
    if ¬ containsAsset plan.assets cmd.participantAsset then .error ErrInvalidAssetForPair
    else
      match pairsQueryFind rows (some PairStatusWaiting)
          [getSecondaryAsset cmd.participantAsset plan.assets, cmd.participantAsset] true []
          (some plan.quantum) (some plan.investingPeriod) (some plan.security)
          (some plan.strategy) (some plan.lossProtection) with
      | [] =>
        match saveOutcome with
        | some e => .error (.wrap "failed to save pair" (.save e))
        | none => .ok (newId,
            [PairEvent.pairCreated cmd.participantAsset cmd.participantAddress
              (getSecondaryAsset cmd.participantAsset plan.assets) plan.quantum
              plan.investingPeriod plan.security plan.strategy plan.lossProtection,
             PairEvent.pairStatusChanged PairStatusWaiting])
      | first :: _ =>
        match loadPair first.id with
        | .error e => .error (.wrap "failed to get pair" (.load e))
        | .ok _ =>
          match saveOutcome with
          | some e => .error (.wrap "failed to save pair" (.save e))
          | none => .ok (first.id,
              [PairEvent.pairMatched cmd.participantAddress "" "" "",
               PairEvent.pairStatusChanged PairStatusWalletConformation])

/-- Go struct `commands.ConfirmPairWallet`. -/
structure ConfirmPairWallet where
  pairId : String
  participantAsset : Asset
  participantPublicKey : String
  walletAddresses : AMap Asset Address
deriving DecidableEq, Repr

/-- Validator tags of `ConfirmPairWallet`: `pair_id` required uuid4,
asset and public key required, `wallet_addresses` required with len=2. -/
def ConfirmPairWallet.validate (c : ConfirmPairWallet) : Bool :=
  isUuid4 c.pairId && c.participantAsset ≠ "" && c.participantPublicKey ≠ "" &&
  c.walletAddresses.length = 2

/-- Go method `confirmPairWalletHandler.Handle` (src/app/commands/pair.go
lines 154-199). `loadResult` is what `repo.GetWithContext` returned for
`cmd.pairId`; `TrackChange` applies each event immediately, so the public
key count is taken on the updated wallet. -/
def confirmPairWalletHandle (loadResult : Except LoadErr Pair) (saveOutcome : Option SaveErr)
    (cmd : ConfirmPairWallet) : Except GoErr (String × List PairEvent) :=
  if ¬ cmd.validate then .error .validationFailed else
  match loadResult with
  | .error .aggregateNotFound => .error ErrPairNotFound
  | .error e => .error (.wrap "failed to get pair" (.load e))
  | .ok p =>
    if p.status ≠ PairStatusWalletConformation then .error ErrInvalidPairStatus
    else if ¬ p.hasAsset cmd.participantAsset then .error ErrInvalidAssetForPair
    else if ¬ (cmd.walletAddresses.all fun kv => p.hasAsset kv.1) then
      .error ErrInvalidAssetForPair
    else if p.wallet.isSome &&
        ¬ (p.wallet.getD {}).areAddressesEqual cmd.walletAddresses then
      .error ErrInvalidWalletAddresses
    else
      match saveOutcome with
      | some e => .error (.wrap "failed to save pair" (.save e))
      | none => .ok (cmd.pairId,
          if (((p.transition (PairEvent.walletAddressConfirmed cmd.participantAsset
                cmd.participantPublicKey cmd.walletAddresses)).wallet.getD
                  {}).publicKeys).length = 2 then
            [PairEvent.walletAddressConfirmed cmd.participantAsset cmd.participantPublicKey
              cmd.walletAddresses, PairEvent.pairStatusChanged PairStatusAssurance]
          else [PairEvent.walletAddressConfirmed cmd.participantAsset
            cmd.participantPublicKey cmd.walletAddresses])

/-- Go struct `commands.SetPairAssurances`. -/
structure SetPairAssurances where
  pairId : String
  participantAsset : Asset
  assurances : List SignedTx
deriving DecidableEq, Repr

/-- Validator tags of `SetPairAssurances`: `pair_id` required uuid4,
asset required, `assurances` required (a non-nil slice; no length bound). -/
def SetPairAssurances.validate (c : SetPairAssurances) : Bool :=
  isUuid4 c.pairId && c.participantAsset ≠ ""

/-- Go helper `hasAssuranceWithNonce` (src/app/commands/pair.go lines
290-297). -/
def hasAssuranceWithNonce (assurances : List SignedTx) (nonce : Int) : Bool :=
  assurances.any fun a => a.nonce = nonce

/-- Go helper `validateAssurances` (src/app/commands/pair.go lines
272-288): nonce 0 and nonce 2 are always required, nonce 4 additionally
for THOR.RUNE; the first missing nonce in the order 0, 2, 4 is reported
in the error meta. -/
def validateAssurances (asset : Asset) (assurances : List SignedTx) : Option GoErr :=
  if ¬ hasAssuranceWithNonce assurances 0 then
    some (ErrInvalidAssurances.includeMeta [("missing_assurance", "missing assurance with nonce 0")])
  else if ¬ hasAssuranceWithNonce assurances 2 then
    some (ErrInvalidAssurances.includeMeta [("missing_assurance", "missing assurance with nonce 2")])
  else if asset = "THOR.RUNE" && ¬ hasAssuranceWithNonce assurances 4 then
    some (ErrInvalidAssurances.includeMeta [("missing_assurance", "missing assurance with nonce 4")])
  else none

/-- Go method `setPairAssurancesHandler.Handle` (src/app/commands/pair.go
lines 223-268). The assurance validation runs before the aggregate load. -/
def setPairAssurancesHandle (loadResult : Except LoadErr Pair) (saveOutcome : Option SaveErr)
    (cmd : SetPairAssurances) : Except GoErr (String × List PairEvent) :=
  if ¬ cmd.validate then .error .validationFailed else
  match validateAssurances cmd.participantAsset cmd.assurances with
  | some e => .error e
  | none =>
    match loadResult with
    | .error .aggregateNotFound => .error ErrPairNotFound
    | .error e => .error (.wrap "failed to get pair" (.load e))
    | .ok p =>
      if p.status ≠ PairStatusAssurance then .error ErrInvalidPairStatus
      else if ¬ p.hasAsset cmd.participantAsset then .error ErrInvalidAssetForPair
      else if p.hasAssurancesForAsset cmd.participantAsset then .error ErrAlreadySetAssurances
      else
        match saveOutcome with
        | some e => .error (.wrap "failed to save pair" (.save e))
        | none => .ok (cmd.pairId,
            if (((cmd.assurances.map fun tx =>
                  PairEvent.assetAssuranceSigned cmd.participantAsset tx).foldl
                    Pair.transition p).assurances).length = 2 then
              (cmd.assurances.map fun tx =>
                PairEvent.assetAssuranceSigned cmd.participantAsset tx) ++
                [PairEvent.pairStatusChanged PairStatusDeposit]
            else cmd.assurances.map fun tx =>
              PairEvent.assetAssuranceSigned cmd.participantAsset tx)

/-- Go struct `commands.AddDeposit`. -/
structure AddDeposit where
  pairId : String
  asset : Asset
  txHash : TxHash
deriving DecidableEq, Repr

/-- Validator tags of `AddDeposit`: `pair_id` required uuid4, asset and
tx hash required. -/
def AddDeposit.validate (c : AddDeposit) : Bool :=
  isUuid4 c.pairId && c.asset ≠ "" && c.txHash ≠ ""

/-- Go method `addDepositHandler.Handle` (src/app/commands/pair.go lines
321-362). -/
def addDepositHandle (loadResult : Except LoadErr Pair) (saveOutcome : Option SaveErr)
    (cmd : AddDeposit) : Except GoErr (String × List PairEvent) :=
  if ¬ cmd.validate then .error .validationFailed else
  match loadResult with
  | .error .aggregateNotFound => .error ErrPairNotFound
  | .error e => .error (.wrap "failed to get pair" (.load e))
  | .ok p =>
    if p.status ≠ PairStatusDeposit then .error ErrInvalidPairStatus
    else if ¬ p.hasAsset cmd.asset then .error ErrInvalidAssetForPair
    else if p.hasDepositForAsset cmd.asset then .error ErrAlreadyHasDeposit
    else
      match saveOutcome with
      | some e => .error (.wrap "failed to save pair" (.save e))
      | none => .ok (cmd.pairId,
          if ((p.transition (PairEvent.assetDeposited cmd.asset
                cmd.txHash)).deposits).length = 2 then
            [PairEvent.assetDeposited cmd.asset cmd.txHash,
             PairEvent.pairStatusChanged PairStatusPreSignWithdrawal]
          else [PairEvent.assetDeposited cmd.asset cmd.txHash])

/-- Go struct `commands.SignWithdrawal`: only the pair id and the signed
transaction; no participant asset or address is part of the command. -/
structure SignWithdrawal where
  pairId : String
  tx : SignedTx
deriving DecidableEq, Repr

/-- Validator tags of `SignWithdrawal`: `pair_id` required uuid4, `tx`
required (a struct, required means not the zero value). -/
def SignWithdrawal.validate (c : SignWithdrawal) : Bool :=
  isUuid4 c.pairId && c.tx ≠ { nonce := 0, tx := [], signature := [] }

/-- Go method `signWithdrawalHandler.Handle` (src/app/commands/pair.go
lines 382-407): after the status check it unconditionally tracks
`WithdrawTxSigned` followed by the status change to `lp`; no asset
membership or participant identity is consulted. -/
def signWithdrawalHandle (loadResult : Except LoadErr Pair) (saveOutcome : Option SaveErr)
    (cmd : SignWithdrawal) : Except GoErr (String × List PairEvent) :=
  if ¬ cmd.validate then .error .validationFailed else
  match loadResult with
  | .error .aggregateNotFound => .error ErrPairNotFound
  | .error e => .error (.wrap "failed to get pair" (.load e))
  | .ok p =>
    if p.status ≠ PairStatusPreSignWithdrawal then .error ErrInvalidPairStatus
    else
      match saveOutcome with
      | some e => .error (.wrap "failed to save pair" (.save e))
      | none => .ok (cmd.pairId,
          [PairEvent.withdrawTxSigned cmd.tx, PairEvent.pairStatusChanged PairStatusLP])

/-- Go struct `commands.LPPair`. -/
structure LPPair where
  pairId : String
  asset : Asset
  txHash : TxHash
deriving DecidableEq, Repr

/-- Validator tags of `LPPair`: `pair_id` required uuid4, asset and tx
hash required. -/
def LPPair.validate (c : LPPair) : Bool :=
  isUuid4 c.pairId && c.asset ≠ "" && c.txHash ≠ ""

/-- Go constant `week = 7 * 24 * time.Hour` in nanoseconds. -/
def weekNanos : Int := 7 * 24 * 60 * 60 * 1000000000

/-- Go method `lpPairHandler.Handle` (src/app/commands/pair.go lines
433-469); `now` is the current-time observation used for the deadline. -/
def lpPairHandle (loadResult : Except LoadErr Pair) (saveOutcome : Option SaveErr)
    (now : Int) (cmd : LPPair) : Except GoErr (String × List PairEvent) :=
  if ¬ cmd.validate then .error .validationFailed else
  match loadResult with
  | .error .aggregateNotFound => .error ErrPairNotFound
  | .error e => .error (.wrap "failed to get pair" (.load e))
  | .ok p =>
    if p.status ≠ PairStatusLP then .error ErrInvalidPairStatus
    else if ¬ p.hasAsset cmd.asset then .error ErrInvalidAssetForPair
    else if p.hasLPForAsset cmd.asset then .error ErrAlreadyHasLP
    else
      match saveOutcome with
      | some e => .error (.wrap "failed to save pair" (.save e))
      | none => .ok (cmd.pairId,
          [PairEvent.lpDone cmd.asset cmd.txHash (now + p.investingPeriod * weekNanos)])

/-- Go struct `commands.CreateNewPlan` (part_000, current revision). -/
structure CreateNewPlan where
  assets : List String
  security : String
  strategy : String
  quantum : Int
  lossProtection : GoFloat
  investingPeriod : Int
deriving DecidableEq, Repr

/-- Validator tags of `CreateNewPlan`: `assets` required with len=2 (no
distinctness or element checks), `security` oneof=2-2, `strategy`
oneof=equal_share, `quantum` min=1, `loss_protection` between 0.1 and
0.5, `investing_period` min=1. -/
def CreateNewPlan.validate (c : CreateNewPlan) : Bool :=
  c.assets.length = 2 && c.security = "2-2" && c.strategy = "equal_share" &&
  c.quantum ≥ 1 && c.lossProtection ≥ ratTenth &&
  c.lossProtection ≤ ratHalf && c.investingPeriod ≥ 1

/-- Plan row carrying the fields of a CreateNewPlan command verbatim, as
the PlanCreated event records them. -/
def planRowFor (newId : String) (cmd : CreateNewPlan) : PlanRow :=
  { id := newId, assets := cmd.assets, security := cmd.security,
    strategy := cmd.strategy, quantum := cmd.quantum,
    lossProtection := cmd.lossProtection, investingPeriod := cmd.investingPeriod }

/-- Go method `createNewPlanHandler.Handle` (part_000 lines 36-56): after
validation the handler saves a single `PlanCreated` event copying the
command fields verbatim; the resulting plan row carries exactly
`cmd.assets`. -/
def createNewPlanHandle (newId : String) (saveOutcome : Option SaveErr)
    (cmd : CreateNewPlan) : Except GoErr (String × PlanRow) :=
  if ¬ cmd.validate then .error .validationFailed else
  match saveOutcome with
  | some e => .error (.wrap "failed to save plan" (.save e))
  | none => .ok (newId, planRowFor newId cmd)

/-! ## System semantics

A system state is the append-only event log, one entry per pair
aggregate in creation order. Two step relations are used. The
synchronous `Step` relation is one successful command-handler
invocation in which the handler sees the pairs read model caught up
with the log (a projection tick immediately precedes every command).
The asynchronous `AsyncStep` relation below it models the program as it
actually runs: the `pairs_query` projection is a separate worker that
catches the table up with the event store only at its own ticks
(`common/projection.go` paces the `Run` loop with a 2-second ticker),
so a command can be served a stale table. Every synchronous run is an
asynchronous one in which a tick precedes every command
(`asyncReachable_of_reachable`). -/

/-- Event log of the system, keyed by aggregate id. -/
abbrev Log := List (String × List PairEvent)

/-- Projection of one aggregate's event stream to its `pairs_query` row:
`insertPair` on PairCreated (the status column starts empty and the
second participant address is the empty address), `updateStatus` on
PairStatusChanged; `PairsQuery.Callback` handles no other event type. -/
def projStep (id : String) (row? : Option PairRow) (e : PairEvent) : Option PairRow :=
  match e with
  | .pairCreated pa paddr sa sv ip ws pss lpr =>
      some { id := id, status := "", assets := [pa, sa],
             participantAddresses := [paddr, ""], shareValue := sv,
             investingPeriod := ip, walletSecurity := ws,
             profitSharingStrategy := pss, lossProtection := lpr }
  | .pairStatusChanged s =>
      (match row? with
       | some r => some { r with status := s }
       | none => none)
  | _ => row?

def projectRow (id : String) (events : List PairEvent) : Option PairRow :=
  events.foldl (projStep id) none

/-- Rows of the `pairs_query` table derived from the log. -/
def logRows (log : Log) : List PairRow :=
  log.filterMap fun kv => projectRow kv.1 kv.2

/-- Aggregate load from the log: replay of the stored events, or the
not-found error when the aggregate has no events. -/
def loadFromLog (log : Log) (id : String) : Except LoadErr Pair :=
  match AMap.find? log id with
  | some events => .ok (Pair.replay events)
  | none => .error .aggregateNotFound

/-- Append the saved events to the target aggregate's stream, creating
the stream for a new aggregate. -/
def logAppend (log : Log) (id : String) (events : List PairEvent) : Log :=
  AMap.set log id (AMap.findD log id [] ++ events)

/-- One successful command-handler invocation against the current log.
The freshly drawn UUID of the create branch is assumed not to collide
with an existing aggregate. -/
inductive Step : Log → Log → Prop where
  | createOrMatch (log : Log) (plan : Except GoErr PlanRow) (newId : String)
      (cmd : CreateOrMatchPair) (id : String) (events : List PairEvent)
      (hfresh : AMap.find? log newId = none)
      (h : createOrMatchPairHandle plan (logRows log) (loadFromLog log) newId none cmd
            = .ok (id, events)) : Step log (logAppend log id events)
  | confirmWallet (log : Log) (cmd : ConfirmPairWallet) (id : String)
      (events : List PairEvent)
      (h : confirmPairWalletHandle (loadFromLog log cmd.pairId) none cmd
            = .ok (id, events)) : Step log (logAppend log id events)
  | setAssurances (log : Log) (cmd : SetPairAssurances) (id : String)
      (events : List PairEvent)
      (h : setPairAssurancesHandle (loadFromLog log cmd.pairId) none cmd
            = .ok (id, events)) : Step log (logAppend log id events)
  | addDeposit (log : Log) (cmd : AddDeposit) (id : String) (events : List PairEvent)
      (h : addDepositHandle (loadFromLog log cmd.pairId) none cmd
            = .ok (id, events)) : Step log (logAppend log id events)
  | signWithdrawal (log : Log) (cmd : SignWithdrawal) (id : String)
      (events : List PairEvent)
      (h : signWithdrawalHandle (loadFromLog log cmd.pairId) none cmd
            = .ok (id, events)) : Step log (logAppend log id events)
  | lpPair (log : Log) (cmd : LPPair) (now : Int) (id : String)
      (events : List PairEvent)
      (h : lpPairHandle (loadFromLog log cmd.pairId) none now cmd
            = .ok (id, events)) : Step log (logAppend log id events)

/-- Logs reachable by running the command handlers from the empty event
log. -/
def Reachable (log : Log) : Prop := Relation.ReflTransGen Step [] log

/-- Ordered status list of the Pair state machine (spec section 3). -/
def pairStatusOrder : List PairStatus :=
  [PairStatusWaiting, PairStatusWalletConformation, PairStatusAssurance,
   PairStatusDeposit, PairStatusPreSignWithdrawal, PairStatusLP, PairStatusWithdrawn]

/-- Position of a status in the ordered status list. -/
def statusIdx (s : PairStatus) : Option Nat :=
  pairStatusOrder.findIdx? fun x => x = s

/-- State of the running system: the event store together with the
`pairs_query` table as the projection worker last left it. -/
structure SysState where
  log : Log
  rows : List PairRow

/-- One transition of the running system: a projection catch-up tick
(the worker folds the pending events into the table, bringing it up to
date with the store), or one successful command-handler invocation.
Only `createOrMatchPair` consults the table, and it reads the table as
it currently stands — possibly stale; every handler loads the aggregate
from the current store and its optimistic save succeeds. -/
inductive AsyncStep : SysState → SysState → Prop where
  | projTick (s : SysState) : AsyncStep s { s with rows := logRows s.log }
  | createOrMatch (s : SysState) (plan : Except GoErr PlanRow) (newId : String)
      (cmd : CreateOrMatchPair) (id : String) (events : List PairEvent)
      (hfresh : AMap.find? s.log newId = none)
      (h : createOrMatchPairHandle plan s.rows (loadFromLog s.log) newId none cmd
            = .ok (id, events)) :
      AsyncStep s { s with log := logAppend s.log id events }
  | confirmWallet (s : SysState) (cmd : ConfirmPairWallet) (id : String)
      (events : List PairEvent)
      (h : confirmPairWalletHandle (loadFromLog s.log cmd.pairId) none cmd
            = .ok (id, events)) :
      AsyncStep s { s with log := logAppend s.log id events }
  | setAssurances (s : SysState) (cmd : SetPairAssurances) (id : String)
      (events : List PairEvent)
      (h : setPairAssurancesHandle (loadFromLog s.log cmd.pairId) none cmd
            = .ok (id, events)) :
      AsyncStep s { s with log := logAppend s.log id events }
  | addDeposit (s : SysState) (cmd : AddDeposit) (id : String) (events : List PairEvent)
      (h : addDepositHandle (loadFromLog s.log cmd.pairId) none cmd
            = .ok (id, events)) :
      AsyncStep s { s with log := logAppend s.log id events }
  | signWithdrawal (s : SysState) (cmd : SignWithdrawal) (id : String)
      (events : List PairEvent)
      (h : signWithdrawalHandle (loadFromLog s.log cmd.pairId) none cmd
            = .ok (id, events)) :
      AsyncStep s { s with log := logAppend s.log id events }
  | lpPair (s : SysState) (cmd : LPPair) (now : Int) (id : String)
      (events : List PairEvent)
      (h : lpPairHandle (loadFromLog s.log cmd.pairId) none now cmd
            = .ok (id, events)) :
      AsyncStep s { s with log := logAppend s.log id events }

/-- States of the running system reachable from the empty store and the
empty table. -/
def AsyncReachable (s : SysState) : Prop :=
  Relation.ReflTransGen AsyncStep { log := [], rows := [] } s

/-! ## Projection runtime (src/common/projection.go, src/app/queries/pairs.go)

The database statements a projection issues while handling one event are
modelled as an explicit statement list; a statement issued directly on
the shared connection autocommits on its own, while `beginTx` and
`commitTx` would delimit an explicit transaction. -/

/-- Database statements issued by the projection code. -/
inductive DbOp where
  | beginTx
  | commitTx
  | rollbackTx
  | execInsertPair (id : String)
  | execUpdateStatus (id : String) (status : PairStatus)
  | execIncrementCursor (name : String)
deriving DecidableEq, Repr

/-- Go method `BaseProjection.Begin` (src/common/projection.go lines
143-160): opens a transaction and runs the cursor increment inside it.
No projection in src/ calls it. -/
def baseProjectionBeginOps (name : String) : List DbOp :=
  [.beginTx, .execIncrementCursor name]

/-- Go method `PairsQuery.Callback` (src/app/queries/pairs.go lines
63-80) as the statement sequence it issues for one event: the table
update (insert on PairCreated, status update on PairStatusChanged,
nothing for other event types) followed by the cursor increment, each a
plain autocommit statement on the shared connection; no transaction is
opened. `Increment` itself is not under src/ and is modelled from the
spec as the single cursor+1 update statement. -/
def pairsQueryCallbackOps (aggregateId : String) (e : PairEvent) : List DbOp :=
  (match e with
   | .pairCreated _ _ _ _ _ _ _ _ => [DbOp.execInsertPair aggregateId]
   | .pairStatusChanged s => [DbOp.execUpdateStatus aggregateId s]
   | _ => []) ++ [DbOp.execIncrementCursor "pairs_query"]

/-- Database state touched by the projection statements: the inserted
pair ids and the persisted cursor. -/
structure ProjDb where
  pairsTable : List String := []
  cursor : Int := 0
deriving DecidableEq, Repr

/-- Effect of one autocommitted statement. -/
def runDbOp (s : ProjDb) : DbOp → ProjDb
  | .execInsertPair id => { s with pairsTable := s.pairsTable ++ [id] }
  | .execIncrementCursor _ => { s with cursor := s.cursor + 1 }
  | _ => s

/-- Effect of a statement sequence; running a proper prefix models a
crash or failure between autocommitted statements. -/
def runDbOps (s : ProjDb) (ops : List DbOp) : ProjDb :=
  ops.foldl runDbOp s

/-! ## Authentication (src/common/authentication.go)

The secp256k1 primitives the source calls (go-ethereum's Keccak256,
Ecrecover and VerifySignature) are kept abstract: every theorem below is
proved either for all primitive instances or for an explicitly given toy
instance. -/

/-- Abstract cryptographic primitives. The first three fields are the
ones the source calls; the last two exist only for the spec-side
Ethereum verifier below. -/
structure EthCrypto where
  keccak256 : String → List Nat
  ecrecover : List Nat → List Nat → Except String (List Nat)
  verifySignature : List Nat → List Nat → List Nat → Bool
  personalMsg : String → String
  recoverAddress : List Nat → List Nat → Option String

/-- Go struct `common.Token` (src/common/authentication.go lines 104-117). -/
structure Token where
  id : String
  chain : String
  publicKey : List Nat
  address : String
  issuedAt : Int
  expiresAt : Int
  challenge : String
  verified : Bool
deriving DecidableEq, Repr

/-- Go method `Token.VerifyChallenge` (src/common/authentication.go lines
284-304): keccak256 of the raw challenge (no personal-sign prefix),
Ecrecover on the signature exactly as submitted (no V adjustment),
equality of the recovered public key with the recorded one, then
VerifySignature on the signature without its recovery id. The token's
chain and address fields are never read. -/
def Token.verifyChallenge (C : EthCrypto) (t : Token) (signature : List Nat) :
    Except String Unit :=
  let buf := C.keccak256 t.challenge
  match C.ecrecover buf signature with
  | .error e => .error ("failed to recover public key: " ++ e)
  | .ok sigPublicKey =>
    if sigPublicKey ≠ t.publicKey then .error "invalid signature"
    else if ¬ C.verifySignature t.publicKey buf signature.dropLast then
      .error "invalid signature"
    else .ok ()

/-- Go `common.ErrAuthenticationExpired`. -/
def ErrAuthenticationExpired : GoErr :=
  .common "auth_expired" "authentication expired or not found" []

/-- Go `common.ErrAuthenticationVerificationFailed`. -/
def ErrAuthenticationVerificationFailed : GoErr :=
  .common "auth_verification_failed" "authentication verification failed" []

/-- Go method `AuthenticationDB.Verify` (src/common/authentication.go
lines 59-77) over the token cache: a missing token yields auth_expired; a
challenge failure yields auth_verification_failed carrying the message in
the meta, leaving the cache unchanged; on success the token is re-stored
with verified set. Cache write failures are not modelled. -/
def authVerify (C : EthCrypto) (cache : AMap String Token) (id : String)
    (signature : List Nat) : Except GoErr (AMap String Token) :=
  match AMap.find? cache id with
  | none => .error ErrAuthenticationExpired
  | some token =>
    match token.verifyChallenge C signature with
    | .error e => .error (ErrAuthenticationVerificationFailed.includeMeta [("error", e)])
    | .ok _ => .ok (AMap.set cache id { token with verified := true })

/-- Modelled from the spec: the Ethereum verification procedure the spec
describes, which is missing from src/. In the spec's words the challenge
is hashed with the personal-sign prefix, the signature's V byte is
adjusted from 27/28 to 0/1 before recovery, the signer's address is
recovered and verification succeeds exactly when it equals the token's
recorded address. -/
def specEthereumVerify (C : EthCrypto) (t : Token) (signature : List Nat) : Bool :=
  let adjusted := signature.dropLast ++
    [match signature.getLast? with
     | some 27 => 0
     | some 28 => 1
     | some v => v
     | none => 0]
  match C.recoverAddress (C.keccak256 (C.personalMsg t.challenge)) adjusted with
  | some a => a = t.address
  | none => false

/-! ## Auxiliary observations on event streams -/

/-- Whether an event is a `PairCreated` event. -/
def isCreatedEvent : PairEvent → Bool
  | .pairCreated _ _ _ _ _ _ _ _ => true
  | _ => false

/-- Whether an event changes the pair's status on apply. -/
def changesStatus : PairEvent → Bool
  | .pairStatusChanged _ => true
  | _ => false

/-- Number of events in a stream that write the `deposits[asset]` entry. -/
def depositWriteCount (asset : Asset) (events : List PairEvent) : Nat :=
  events.countP fun e =>
    match e with
    | .assetDeposited a _ => a = asset
    | _ => false

/-- Number of events in a stream that write the `lp[asset]` entry. -/
def lpWriteCount (asset : Asset) (events : List PairEvent) : Nat :=
  events.countP fun e =>
    match e with
    | .lpDone a _ _ => a = asset
    | _ => false

/-- Number of events in a stream that write the
`wallet.public_keys[asset]` entry. -/
def pkWriteCount (asset : Asset) (events : List PairEvent) : Nat :=
  events.countP fun e =>
    match e with
    | .walletAddressConfirmed a _ _ => a = asset
    | _ => false

/-- Number of events in a stream that write the whole `wallet.addresses`
map. -/
def addressesWriteCount (events : List PairEvent) : Nat :=
  events.countP fun e =>
    match e with
    | .walletAddressConfirmed _ _ _ => true
    | _ => false

/-- Well-formed aggregate stream: it opens with the `PairCreated` event
and never repeats it. -/
def StreamWf (events : List PairEvent) : Prop :=
  ∃ e rest, events = e :: rest ∧ isCreatedEvent e = true ∧
    ∀ e1 ∈ rest, isCreatedEvent e1 = false

/-- Structural invariant of reachable logs: aggregate ids are unique and
every stored stream is well formed. -/
def GoodLog (log : Log) : Prop :=
  (log.map Prod.fst).Nodup ∧ ∀ kv ∈ log, StreamWf kv.2

/-! ## Concrete fixtures used by witnesses and counterexamples -/

/-- Syntactically valid UUIDv4 used as the demo plan id. -/
def uuidPlan : String := "00000000-0000-4000-8000-000000000000"

/-- Syntactically valid UUIDv4 used as the demo pair id. -/
def uuidPair : String := "11111111-1111-4111-8111-111111111111"

/-- Another syntactically valid UUIDv4, used where a second fresh id is
needed. -/
def uuidOther : String := "22222222-2222-4222-8222-222222222222"

/-- Demo plan row: the spec's seed plan over THOR.RUNE and BTC.BTC. -/
def demoPlan : PlanRow :=
  { id := uuidPlan, assets := ["THOR.RUNE", "BTC.BTC"], security := "2-2",
    strategy := "equal_share", quantum := 100, lossProtection := ratTenth,
    investingPeriod := 4 }

/-- First participant's create command (BTC side). -/
def cmdCreate : CreateOrMatchPair :=
  { planId := uuidPlan, participantAsset := "BTC.BTC", participantAddress := "btcAddr" }

/-- Second participant's counterpart command (THOR side). -/
def cmdMatch : CreateOrMatchPair :=
  { planId := uuidPlan, participantAsset := "THOR.RUNE", participantAddress := "thorAddr" }

/-- Create command with an asset outside the plan. -/
def cmdWrongAsset : CreateOrMatchPair :=
  { planId := uuidPlan, participantAsset := "ETH.ETH", participantAddress := "ethAddr" }

/-- Events appended by the create branch for `cmdCreate` and `demoPlan`. -/
def demoCreateEvents : List PairEvent :=
  [.pairCreated "BTC.BTC" "btcAddr" "THOR.RUNE" 100 4 "2-2" "equal_share" ratTenth,
   .pairStatusChanged PairStatusWaiting]

/-- Events appended by the match branch for `cmdMatch`. -/
def demoMatchEvents : List PairEvent :=
  [.pairMatched "thorAddr" "" "" "", .pairStatusChanged PairStatusWalletConformation]

/-- Log after the first create step. -/
def demoLog1 : Log := logAppend [] uuidPair demoCreateEvents

/-- Log after the counterpart matched. -/
def demoLog2 : Log := logAppend demoLog1 uuidPair demoMatchEvents

/-- The matched pair as loaded from `demoLog2`. -/
def demoMatchedPair : Pair := Pair.replay (demoCreateEvents ++ demoMatchEvents)

/-- First wallet confirmation whose addresses can pass the recorded-map
comparison: against the empty recorded map only empty addresses compare
equal. -/
def cmdConfirmEmpty1 : ConfirmPairWallet :=
  { pairId := uuidPair, participantAsset := "THOR.RUNE", participantPublicKey := "key1",
    walletAddresses := [("THOR.RUNE", ""), ("BTC.BTC", "")] }

/-- Repetition of the same participant's confirmation with a different
public key. -/
def cmdConfirmEmpty2 : ConfirmPairWallet :=
  { pairId := uuidPair, participantAsset := "THOR.RUNE", participantPublicKey := "key2",
    walletAddresses := [("THOR.RUNE", ""), ("BTC.BTC", "")] }

/-- First wallet confirmation with ordinary non-empty addresses. -/
def cmdConfirmReal : ConfirmPairWallet :=
  { pairId := uuidPair, participantAsset := "THOR.RUNE", participantPublicKey := "key1",
    walletAddresses := [("THOR.RUNE", "thor1sharedaddr"), ("BTC.BTC", "bc1sharedaddr")] }

/-- Log after the first empty-address confirmation. -/
def demoLog3 : Log :=
  logAppend demoLog2 uuidPair
    [.walletAddressConfirmed "THOR.RUNE" "key1" [("THOR.RUNE", ""), ("BTC.BTC", "")]]

/-- Log after the repeated confirmation by the same participant. -/
def demoLog4 : Log :=
  logAppend demoLog3 uuidPair
    [.walletAddressConfirmed "THOR.RUNE" "key2" [("THOR.RUNE", ""), ("BTC.BTC", "")]]

/-- Event stream of the demo pair in `demoLog4`. -/
def demoEventsC6 : List PairEvent :=
  demoCreateEvents ++ demoMatchEvents ++
    [.walletAddressConfirmed "THOR.RUNE" "key1" [("THOR.RUNE", ""), ("BTC.BTC", "")],
     .walletAddressConfirmed "THOR.RUNE" "key2" [("THOR.RUNE", ""), ("BTC.BTC", "")]]

/-- The second participant's (BTC side) wallet confirmation, completing
the key set. -/
def cmdConfirmBtc : ConfirmPairWallet :=
  { pairId := uuidPair, participantAsset := "BTC.BTC", participantPublicKey := "keyB",
    walletAddresses := [("THOR.RUNE", ""), ("BTC.BTC", "")] }

/-- A third participant's counterpart command, issued while the pairs
table is stale. -/
def cmdMatch2 : CreateOrMatchPair :=
  { planId := uuidPlan, participantAsset := "THOR.RUNE", participantAddress := "thorAddr2" }

/-- Log after both participants confirmed (one key per asset): the
second confirmation completes the key set, so the handler also emits
the status change to assurance. -/
def demoLog5 : Log :=
  logAppend demoLog3 uuidPair
    [.walletAddressConfirmed "BTC.BTC" "keyB" [("THOR.RUNE", ""), ("BTC.BTC", "")],
     .pairStatusChanged PairStatusAssurance]

/-- Running-system state with the pair at status assurance in the store
while the table still holds the waiting row of the last projection
tick. -/
def demoRegressState : SysState := { log := demoLog5, rows := logRows demoLog1 }

/-- State after the stale counterpart command matched the
assurance-status pair again. -/
def demoRegressState' : SysState :=
  { demoRegressState with
    log := logAppend demoLog5 uuidPair
      [.pairMatched "thorAddr2" "" "" "",
       .pairStatusChanged PairStatusWalletConformation] }

/-- Row of the demo waiting pair as the read model materializes it. -/
def demoWaitingRow : PairRow :=
  { id := uuidPair, status := PairStatusWaiting, assets := ["BTC.BTC", "THOR.RUNE"],
    participantAddresses := ["btcAddr", ""], shareValue := 100, investingPeriod := 4,
    walletSecurity := "2-2", profitSharingStrategy := "equal_share",
    lossProtection := ratTenth }

/-- Toy instantiation of the abstract crypto primitives, used to compare
the source verifier with the spec's described verifier on one concrete
input. -/
def toyCrypto : EthCrypto :=
  { keccak256 := fun s => [s.length],
    ecrecover := fun _ _ => .ok [7],
    verifySignature := fun _ _ _ => true,
    personalMsg := fun s => "EPM" ++ s,
    recoverAddress := fun _ _ => some "addrB" }

/-- Demo token whose recorded address differs from every address the toy
primitives recover. -/
def toyToken : Token :=
  { id := "tid", chain := "ETH", publicKey := [7], address := "addrA", issuedAt := 0,
    expiresAt := 0, challenge := "c", verified := false }

/-- Demo signature with an Ethereum-style V byte of 27. -/
def toySignature : List Nat := [1, 2, 27]

/-- SignedTx fixture with a given nonce. -/
def txWithNonce (n : Int) : SignedTx := { nonce := n, tx := [1], signature := [2] }

/-- Load function standing for a repository with no aggregates. -/
def noLoad : String → Except LoadErr Pair := fun _ => .error .aggregateNotFound

/-- Whether a handler result is a `common.Error` with the given code. -/
def isCommonWithCode (e : Except GoErr (String × List PairEvent)) (code : String) : Bool :=
  match e with
  | .error (.common c _ _) => c = code
  | _ => false

/-- CreateNewPlan command with a duplicated asset identifier. -/
def cmdPlanDup : CreateNewPlan :=
  { assets := ["BTC.BTC", "BTC.BTC"], security := "2-2", strategy := "equal_share",
    quantum := 100, lossProtection := ratTenth, investingPeriod := 4 }

/-- Plan row produced for `cmdPlanDup`. -/
def planDupRow : PlanRow :=
  { id := uuidPlan, assets := ["BTC.BTC", "BTC.BTC"], security := "2-2",
    strategy := "equal_share", quantum := 100, lossProtection := ratTenth,
    investingPeriod := 4 }

/-- Demo PairCreated event used by the projection statements. -/
def demoCreatedEvent : PairEvent :=
  .pairCreated "BTC.BTC" "btcAddr" "THOR.RUNE" 100 4 "2-2" "equal_share" ratTenth

/-! # Theorems -/

/-! ## Map and log lemmas -/

theorem AMap.find?_set_self {α β : Type} [DecidableEq α] (m : AMap α β) (k : α) (v : β) :
    AMap.find? (AMap.set m k v) k = some v := by
  induction m with
  | nil => simp [AMap.set, AMap.find?]
  | cons hd tl ih =>
    by_cases h : hd.1 = k
    · simp [AMap.set, h, AMap.find?]
    · simp [AMap.set, h, AMap.find?, ih]

theorem AMap.find?_set_other {α β : Type} [DecidableEq α] (m : AMap α β) (k k1 : α) (v : β)
    (h : k1 ≠ k) : AMap.find? (AMap.set m k v) k1 = AMap.find? m k1 := by
  have hne : k ≠ k1 := fun h2 => h h2.symm
  induction m with
  | nil =>
    simp only [AMap.set, AMap.find?]
    rw [if_neg hne]
  | cons hd tl ih =>
    by_cases h2 : hd.1 = k
    · subst h2
      simp only [AMap.set, if_pos rfl, AMap.find?]
      rw [if_neg hne, if_neg hne]
    · simp only [AMap.set, h2, if_false, AMap.find?]
      by_cases h3 : hd.1 = k1 <;> simp [h3, ih]

theorem AMap.find?_mem {α β : Type} [DecidableEq α] (m : AMap α β) (k : α) (v : β)
    (h : AMap.find? m k = some v) : (k, v) ∈ m := by
  induction m with
  | nil => simp [AMap.find?] at h
  | cons hd tl ih =>
    obtain ⟨a, b⟩ := hd
    by_cases h2 : a = k
    · subst h2
      simp [AMap.find?] at h
      subst h
      exact List.mem_cons_self _ _
    · simp only [AMap.find?, h2, if_false] at h
      exact List.mem_cons_of_mem _ (ih h)

theorem AMap.find?_eq_none_iff {α β : Type} [DecidableEq α] (m : AMap α β) (k : α) :
    AMap.find? m k = none ↔ k ∉ m.map Prod.fst := by
  induction m with
  | nil => simp [AMap.find?]
  | cons hd tl ih =>
    obtain ⟨a, b⟩ := hd
    by_cases h2 : a = k
    · subst h2
      simp [AMap.find?]
    · have h3 : ¬ k = a := fun h4 => h2 h4.symm
      simp [AMap.find?, h2, ih, h3]

theorem AMap.find?_of_mem_nodup {α β : Type} [DecidableEq α] (m : AMap α β) (k : α) (v : β)
    (hnd : (m.map Prod.fst).Nodup) (hmem : (k, v) ∈ m) : AMap.find? m k = some v := by
  induction m with
  | nil => simp at hmem
  | cons hd tl ih =>
    simp only [List.map_cons, List.nodup_cons] at hnd
    rcases List.mem_cons.mp hmem with h | h
    · rw [← h]
      simp [AMap.find?]
    · have hne : hd.1 ≠ k := by
        intro he
        exact hnd.1 (he ▸ (List.mem_map.mpr ⟨(k, v), h, rfl⟩))
      simp only [AMap.find?, hne, if_false]
      exact ih hnd.2 h

theorem AMap.keys_set_of_none {α β : Type} [DecidableEq α] (m : AMap α β) (k : α) (v : β)
    (h : AMap.find? m k = none) :
    (AMap.set m k v).map Prod.fst = m.map Prod.fst ++ [k] := by
  induction m with
  | nil => simp [AMap.set]
  | cons hd tl ih =>
    by_cases h2 : hd.1 = k
    · simp [AMap.find?, h2] at h
    · simp only [AMap.find?, h2, if_false] at h
      simp [AMap.set, h2, ih h]

theorem AMap.keys_set_of_some {α β : Type} [DecidableEq α] (m : AMap α β) (k : α) (v w : β)
    (h : AMap.find? m k = some w) :
    (AMap.set m k v).map Prod.fst = m.map Prod.fst := by
  induction m with
  | nil => simp [AMap.find?] at h
  | cons hd tl ih =>
    by_cases h2 : hd.1 = k
    · simp [AMap.set, h2]
    · simp only [AMap.find?, h2, if_false] at h
      simp [AMap.set, h2, ih h]

theorem AMap.mem_set {α β : Type} [DecidableEq α] (m : AMap α β) (k : α) (v : β)
    (kv : α × β) (h : kv ∈ AMap.set m k v) : kv = (k, v) ∨ kv ∈ m := by
  induction m with
  | nil =>
    simp [AMap.set] at h
    exact Or.inl h
  | cons hd tl ih =>
    by_cases h2 : hd.1 = k
    · simp only [AMap.set, h2, if_pos] at h
      rcases List.mem_cons.mp h with h3 | h3
      · exact Or.inl h3
      · exact Or.inr (List.mem_cons_of_mem hd h3)
    · simp only [AMap.set, h2, if_false] at h
      rcases List.mem_cons.mp h with h3 | h3
      · exact Or.inr (h3 ▸ List.mem_cons_self hd tl)
      · rcases ih h3 with h4 | h4
        · exact Or.inl h4
        · exact Or.inr (List.mem_cons_of_mem hd h4)

theorem find?_logAppend_self (log : Log) (id : String) (events : List PairEvent) :
    AMap.find? (logAppend log id events) id =
      some (AMap.findD log id [] ++ events) := by
  unfold logAppend
  exact AMap.find?_set_self log id _

theorem find?_logAppend_other (log : Log) (id id1 : String) (events : List PairEvent)
    (h : id1 ≠ id) :
    AMap.find? (logAppend log id events) id1 = AMap.find? log id1 := by
  unfold logAppend
  exact AMap.find?_set_other log id id1 _ h

/-! ## Replay and status lemmas -/

theorem Pair.replay_append (l1 l2 : List PairEvent) :
    Pair.replay (l1 ++ l2) = l2.foldl Pair.transition (Pair.replay l1) := by
  unfold Pair.replay
  rw [List.foldl_append]

theorem Pair.transition_status_of_not_changes (p : Pair) (e : PairEvent)
    (h : changesStatus e = false) : (p.transition e).status = p.status := by
  cases e <;> simp [changesStatus] at h ⊢ <;> rfl

theorem Pair.foldl_status_of_not_changes (l : List PairEvent) :
    (∀ e ∈ l, changesStatus e = false) → ∀ p : Pair,
      (l.foldl Pair.transition p).status = p.status := by
  induction l with
  | nil => intro _ p; rfl
  | cons e rest ih =>
    intro h p
    have he : changesStatus e = false := h e (List.mem_cons_self e rest)
    have hr : ∀ e1 ∈ rest, changesStatus e1 = false :=
      fun e1 h1 => h e1 (List.mem_cons_of_mem e h1)
    simp only [List.foldl_cons]
    rw [ih hr, Pair.transition_status_of_not_changes p e he]

/-! ## Projection-row and stream lemmas -/

/-- Along a created-event-free suffix, the projected row stays present and
its status column tracks the replayed aggregate's status. -/
theorem projFold_status (id : String) (l : List PairEvent) :
    (∀ e ∈ l, isCreatedEvent e = false) → ∀ (r : PairRow) (p : Pair),
      r.status = p.status →
      ∃ r1, l.foldl (projStep id) (some r) = some r1 ∧
        r1.status = (l.foldl Pair.transition p).status ∧ r1.id = r.id := by
  induction l with
  | nil => intro _ r p h; exact ⟨r, rfl, h, rfl⟩
  | cons e rest ih =>
    intro h r p hrp
    have he : isCreatedEvent e = false := h e (List.mem_cons_self e rest)
    have hr : ∀ e1 ∈ rest, isCreatedEvent e1 = false :=
      fun e1 h1 => h e1 (List.mem_cons_of_mem e h1)
    simp only [List.foldl_cons]
    cases e with
    | pairCreated pa paddr sa sv ip ws pss lpr => simp [isCreatedEvent] at he
    | pairStatusChanged s =>
      have hstep : projStep id (some r) (.pairStatusChanged s) =
          some { r with status := s } := rfl
      rw [hstep]
      have := ih hr { r with status := s } (p.transition (.pairStatusChanged s)) rfl
      rcases this with ⟨r1, h1, h2, h3⟩
      exact ⟨r1, h1, h2, h3⟩
    | pairMatched paddr ek hcc kg =>
      exact ih hr r _ (by rw [hrp]; rfl)
    | walletAddressConfirmed pa pk waddrs =>
      exact ih hr r _ (by rw [hrp]; rfl)
    | assetAssuranceSigned a tx =>
      exact ih hr r _ (by rw [hrp]; rfl)
    | assetDeposited a th =>
      exact ih hr r _ (by rw [hrp]; rfl)
    | withdrawTxSigned tx =>
      exact ih hr r _ (by rw [hrp]; rfl)
    | lpDone a th d =>
      exact ih hr r _ (by rw [hrp]; rfl)
    | withdrawn th =>
      exact ih hr r _ (by rw [hrp]; rfl)

/-- For a well-formed stream the projected row exists, carries the
aggregate id, and its status equals the replayed status. -/
theorem projectRow_status (id : String) (events : List PairEvent)
    (hwf : StreamWf events) :
    ∃ r, projectRow id events = some r ∧
      r.status = (Pair.replay events).status ∧ r.id = id := by
  rcases hwf with ⟨e, rest, hev, hcre, hrest⟩
  subst hev
  cases e with
  | pairCreated pa paddr sa sv ip ws pss lpr =>
    unfold projectRow Pair.replay
    simp only [List.foldl_cons]
    have h0 := projFold_status id rest hrest
      { id := id, status := "", assets := [pa, sa],
        participantAddresses := [paddr, ""], shareValue := sv, investingPeriod := ip,
        walletSecurity := ws, profitSharingStrategy := pss, lossProtection := lpr }
      (Pair.transition {} (.pairCreated pa paddr sa sv ip ws pss lpr)) rfl
    rcases h0 with ⟨r1, h1, h2, h3⟩
    exact ⟨r1, h1, h2, h3⟩
  | pairStatusChanged s => simp [isCreatedEvent] at hcre
  | pairMatched paddr ek hcc kg => simp [isCreatedEvent] at hcre
  | walletAddressConfirmed pa pk waddrs => simp [isCreatedEvent] at hcre
  | assetAssuranceSigned a tx => simp [isCreatedEvent] at hcre
  | assetDeposited a th => simp [isCreatedEvent] at hcre
  | withdrawTxSigned tx => simp [isCreatedEvent] at hcre
  | lpDone a th d => simp [isCreatedEvent] at hcre
  | withdrawn th => simp [isCreatedEvent] at hcre

theorem streamWf_append (s t : List PairEvent) (hs : StreamWf s)
    (ht : ∀ e ∈ t, isCreatedEvent e = false) : StreamWf (s ++ t) := by
  rcases hs with ⟨e, rest, hev, hcre, hrest⟩
  subst hev
  refine ⟨e, rest ++ t, by simp, hcre, ?_⟩
  intro e1 h1
  rcases List.mem_append.mp h1 with h2 | h2
  · exact hrest e1 h2
  · exact ht e1 h2

/-! ## Handler inversion lemmas -/

theorem createOrMatch_ok_inv (planResult : Except GoErr PlanRow) (rows : List PairRow)
    (loadPair : String → Except LoadErr Pair) (newId : String)
    (saveOutcome : Option SaveErr) (cmd : CreateOrMatchPair) (id : String)
    (events : List PairEvent)
    (h : createOrMatchPairHandle planResult rows loadPair newId saveOutcome cmd =
      .ok (id, events)) :
    cmd.validate = true ∧ saveOutcome = none ∧ ∃ plan, planResult = .ok plan ∧
      containsAsset plan.assets cmd.participantAsset = true ∧
      ((pairsQueryFind rows (some PairStatusWaiting)
          [getSecondaryAsset cmd.participantAsset plan.assets, cmd.participantAsset] true []
          (some plan.quantum) (some plan.investingPeriod) (some plan.security)
          (some plan.strategy) (some plan.lossProtection) = [] ∧ id = newId ∧
        events = [.pairCreated cmd.participantAsset cmd.participantAddress
            (getSecondaryAsset cmd.participantAsset plan.assets) plan.quantum
            plan.investingPeriod plan.security plan.strategy plan.lossProtection,
          .pairStatusChanged PairStatusWaiting]) ∨
       (∃ first rest p, pairsQueryFind rows (some PairStatusWaiting)
          [getSecondaryAsset cmd.participantAsset plan.assets, cmd.participantAsset] true []
          (some plan.quantum) (some plan.investingPeriod) (some plan.security)
          (some plan.strategy) (some plan.lossProtection) = first :: rest ∧
        loadPair first.id = .ok p ∧ id = first.id ∧
        events = [.pairMatched cmd.participantAddress "" "" "",
          .pairStatusChanged PairStatusWalletConformation])) := by
  unfold createOrMatchPairHandle at h
  split at h
  · simp at h
  next hval =>
    have hval1 : cmd.validate = true := by
      by_contra h2
      exact hval (by simp [h2])
    split at h
    · simp at h
    next plan =>
      split at h
      · simp at h
      next hc =>
        have hc1 : containsAsset plan.assets cmd.participantAsset = true := by
          by_contra h2
          exact hc (by simp [h2])
        split at h
        next hq =>
          split at h
          · simp at h
          · simp only [Except.ok.injEq, Prod.mk.injEq] at h
            exact ⟨hval1, rfl, plan, rfl, hc1,
              Or.inl ⟨hq, h.1.symm, h.2.symm⟩⟩
        next first tail hq =>
          split at h
          · simp at h
          next p hload =>
            split at h
            · simp at h
            · simp only [Except.ok.injEq, Prod.mk.injEq] at h
              exact ⟨hval1, rfl, plan, rfl, hc1,
                Or.inr ⟨first, tail, p, hq, hload, h.1.symm, h.2.symm⟩⟩

theorem confirmWallet_ok_inv (loadResult : Except LoadErr Pair)
    (saveOutcome : Option SaveErr) (cmd : ConfirmPairWallet) (id : String)
    (events : List PairEvent)
    (h : confirmPairWalletHandle loadResult saveOutcome cmd = .ok (id, events)) :
    cmd.validate = true ∧ saveOutcome = none ∧ ∃ p, loadResult = .ok p ∧
      p.status = PairStatusWalletConformation ∧ id = cmd.pairId ∧
      (∀ e ∈ events, isCreatedEvent e = false) ∧
      (events = [.walletAddressConfirmed cmd.participantAsset cmd.participantPublicKey
          cmd.walletAddresses] ∨
       events = [.walletAddressConfirmed cmd.participantAsset cmd.participantPublicKey
          cmd.walletAddresses, .pairStatusChanged PairStatusAssurance]) := by
  unfold confirmPairWalletHandle at h
  split at h
  · simp at h
  next hval =>
    have hval1 : cmd.validate = true := by
      by_contra h2
      exact hval (by simp [h2])
    split at h
    · simp at h
    · simp at h
    next p =>
      split at h
      · simp at h
      next hst =>
        have hst1 : p.status = PairStatusWalletConformation := by
          by_contra h2
          exact hst h2
        split at h
        · simp at h
        · split at h
          · simp at h
          · split at h
            · simp at h
            · split at h
              · simp at h
              · simp only [Except.ok.injEq, Prod.mk.injEq] at h
                obtain ⟨hid, hev⟩ := h
                refine ⟨hval1, rfl, p, rfl, hst1, hid.symm, ?_, ?_⟩
                · intro e he
                  rw [← hev] at he
                  split at he
                  · fin_cases he <;> rfl
                  · fin_cases he
                    rfl
                · rw [← hev]
                  split
                  · exact Or.inr rfl
                  · exact Or.inl rfl

theorem setAssurances_ok_inv (loadResult : Except LoadErr Pair)
    (saveOutcome : Option SaveErr) (cmd : SetPairAssurances) (id : String)
    (events : List PairEvent)
    (h : setPairAssurancesHandle loadResult saveOutcome cmd = .ok (id, events)) :
    cmd.validate = true ∧ saveOutcome = none ∧ ∃ p, loadResult = .ok p ∧
      p.status = PairStatusAssurance ∧
      p.hasAssurancesForAsset cmd.participantAsset = false ∧ id = cmd.pairId ∧
      (events = cmd.assurances.map (fun tx =>
          PairEvent.assetAssuranceSigned cmd.participantAsset tx) ∨
       events = cmd.assurances.map (fun tx =>
          PairEvent.assetAssuranceSigned cmd.participantAsset tx) ++
          [.pairStatusChanged PairStatusDeposit]) := by
  unfold setPairAssurancesHandle at h
  split at h
  · simp at h
  next hval =>
    have hval1 : cmd.validate = true := by
      by_contra h2
      exact hval (by simp [h2])
    split at h
    · simp at h
    · split at h
      · simp at h
      · simp at h
      next p =>
        split at h
        · simp at h
        next hst =>
          have hst1 : p.status = PairStatusAssurance := by
            by_contra h2
            exact hst h2
          split at h
          · simp at h
          · split at h
            next hhas =>
              simp at h
            next hhas =>
              have hhas1 : p.hasAssurancesForAsset cmd.participantAsset = false := by
                by_contra h2
                exact hhas (by simp at h2; simp [h2])
              split at h
              · simp at h
              · simp only [Except.ok.injEq, Prod.mk.injEq] at h
                obtain ⟨hid, hev⟩ := h
                refine ⟨hval1, rfl, p, rfl, hst1, hhas1, hid.symm, ?_⟩
                rw [← hev]
                split
                · exact Or.inr rfl
                · exact Or.inl rfl

theorem addDeposit_ok_inv (loadResult : Except LoadErr Pair)
    (saveOutcome : Option SaveErr) (cmd : AddDeposit) (id : String)
    (events : List PairEvent)
    (h : addDepositHandle loadResult saveOutcome cmd = .ok (id, events)) :
    cmd.validate = true ∧ saveOutcome = none ∧ ∃ p, loadResult = .ok p ∧
      p.status = PairStatusDeposit ∧
      p.hasDepositForAsset cmd.asset = false ∧ id = cmd.pairId ∧
      (events = [.assetDeposited cmd.asset cmd.txHash] ∨
       events = [.assetDeposited cmd.asset cmd.txHash,
         .pairStatusChanged PairStatusPreSignWithdrawal]) := by
  unfold addDepositHandle at h
  split at h
  · simp at h
  next hval =>
    have hval1 : cmd.validate = true := by
      by_contra h2
      exact hval (by simp [h2])
    split at h
    · simp at h
    · simp at h
    next p =>
      split at h
      · simp at h
      next hst =>
        have hst1 : p.status = PairStatusDeposit := by
          by_contra h2
          exact hst h2
        split at h
        · simp at h
        · split at h
          next hhas =>
            simp at h
          next hhas =>
            have hhas1 : p.hasDepositForAsset cmd.asset = false := by
              by_contra h2
              exact hhas (by simp at h2; simp [h2])
            split at h
            · simp at h
            · simp only [Except.ok.injEq, Prod.mk.injEq] at h
              obtain ⟨hid, hev⟩ := h
              refine ⟨hval1, rfl, p, rfl, hst1, hhas1, hid.symm, ?_⟩
              rw [← hev]
              split
              · exact Or.inr rfl
              · exact Or.inl rfl

theorem signWithdrawal_ok_inv (loadResult : Except LoadErr Pair)
    (saveOutcome : Option SaveErr) (cmd : SignWithdrawal) (id : String)
    (events : List PairEvent)
    (h : signWithdrawalHandle loadResult saveOutcome cmd = .ok (id, events)) :
    cmd.validate = true ∧ saveOutcome = none ∧ ∃ p, loadResult = .ok p ∧
      p.status = PairStatusPreSignWithdrawal ∧ id = cmd.pairId ∧
      events = [.withdrawTxSigned cmd.tx, .pairStatusChanged PairStatusLP] := by
  unfold signWithdrawalHandle at h
  split at h
  · simp at h
  next hval =>
    have hval1 : cmd.validate = true := by
      by_contra h2
      exact hval (by simp [h2])
    split at h
    · simp at h
    · simp at h
    next p =>
      split at h
      · simp at h
      next hst =>
        have hst1 : p.status = PairStatusPreSignWithdrawal := by
          by_contra h2
          exact hst h2
        split at h
        · simp at h
        · simp only [Except.ok.injEq, Prod.mk.injEq] at h
          exact ⟨hval1, rfl, p, rfl, hst1, h.1.symm, h.2.symm⟩

theorem lpPair_ok_inv (loadResult : Except LoadErr Pair)
    (saveOutcome : Option SaveErr) (now : Int) (cmd : LPPair) (id : String)
    (events : List PairEvent)
    (h : lpPairHandle loadResult saveOutcome now cmd = .ok (id, events)) :
    cmd.validate = true ∧ saveOutcome = none ∧ ∃ p, loadResult = .ok p ∧
      p.status = PairStatusLP ∧ p.hasLPForAsset cmd.asset = false ∧
      id = cmd.pairId ∧ ∃ d, events = [.lpDone cmd.asset cmd.txHash d] := by
  unfold lpPairHandle at h
  split at h
  · simp at h
  next hval =>
    have hval1 : cmd.validate = true := by
      by_contra h2
      exact hval (by simp [h2])
    split at h
    · simp at h
    · simp at h
    next p =>
      split at h
      · simp at h
      next hst =>
        have hst1 : p.status = PairStatusLP := by
          by_contra h2
          exact hst h2
        split at h
        · simp at h
        · split at h
          next hhas =>
            simp at h
          next hhas =>
            have hhas1 : p.hasLPForAsset cmd.asset = false := by
              by_contra h2
              exact hhas (by simp at h2; simp [h2])
            split at h
            · simp at h
            · simp only [Except.ok.injEq, Prod.mk.injEq] at h
              exact ⟨hval1, rfl, p, rfl, hst1, hhas1, h.1.symm,
                now + p.investingPeriod * weekNanos, h.2.symm⟩

/-! ## Log well-formedness under steps -/

theorem loadFromLog_ok (log : Log) (id : String) (p : Pair)
    (h : loadFromLog log id = .ok p) :
    ∃ events, AMap.find? log id = some events ∧ p = Pair.replay events := by
  unfold loadFromLog at h
  cases hf : AMap.find? log id with
  | none => rw [hf] at h; simp at h
  | some events =>
    rw [hf] at h
    simp only [Except.ok.injEq] at h
    exact ⟨events, rfl, h.symm⟩

theorem findD_of_find? (log : Log) (id : String) (events : List PairEvent)
    (h : AMap.find? log id = some events) : AMap.findD log id [] = events := by
  unfold AMap.findD
  rw [h]
  rfl

theorem findD_of_none (log : Log) (id : String)
    (h : AMap.find? log id = none) : AMap.findD log id ([] : List PairEvent) = [] := by
  unfold AMap.findD
  rw [h]
  rfl

theorem goodLog_logAppend_existing (log : Log) (id : String) (old events : List PairEvent)
    (hgood : GoodLog log) (hfind : AMap.find? log id = some old)
    (hnc : ∀ e ∈ events, isCreatedEvent e = false) :
    GoodLog (logAppend log id events) := by
  constructor
  · unfold logAppend
    rw [AMap.keys_set_of_some log id _ old hfind]
    exact hgood.1
  · intro kv hkv
    unfold logAppend at hkv
    rcases AMap.mem_set _ _ _ kv hkv with h | h
    · rw [h]
      show StreamWf (AMap.findD log id [] ++ events)
      rw [findD_of_find? log id old hfind]
      exact streamWf_append old events
        (hgood.2 (id, old) (AMap.find?_mem _ _ _ hfind)) hnc
    · exact hgood.2 kv h

theorem goodLog_logAppend_fresh (log : Log) (id : String) (events : List PairEvent)
    (hgood : GoodLog log) (hfind : AMap.find? log id = none)
    (hwf : StreamWf events) : GoodLog (logAppend log id events) := by
  constructor
  · unfold logAppend
    rw [AMap.keys_set_of_none log id _ hfind]
    have hnotin : id ∉ log.map Prod.fst := (AMap.find?_eq_none_iff log id).mp hfind
    simp [List.nodup_append, hgood.1, hnotin]
  · intro kv hkv
    unfold logAppend at hkv
    rcases AMap.mem_set _ _ _ kv hkv with h | h
    · rw [h]
      show StreamWf (AMap.findD log id [] ++ events)
      rw [findD_of_none log id hfind]
      simpa using hwf
    · exact hgood.2 kv h

theorem goodLog_step (log log' : Log) (hgood : GoodLog log) (hstep : Step log log') :
    GoodLog log' := by
  cases hstep with
  | createOrMatch plan newId cmd id events hfresh h =>
    obtain ⟨hval, hsave, plan1, hplan, hc, hbr⟩ :=
      createOrMatch_ok_inv _ _ _ _ _ _ _ _ h
    rcases hbr with ⟨hq, hid, hev⟩ | ⟨first, tail, p, hq, hload, hid, hev⟩
    · rw [hid]
      apply goodLog_logAppend_fresh log newId events hgood hfresh
      rw [hev]
      exact ⟨_, _, rfl, rfl, by intro e he; fin_cases he; rfl⟩
    · obtain ⟨evs0, hfind, _⟩ := loadFromLog_ok log first.id p hload
      rw [hid]
      apply goodLog_logAppend_existing log first.id evs0 events hgood hfind
      rw [hev]
      intro e he
      fin_cases he <;> rfl
  | confirmWallet cmd id events h =>
    obtain ⟨hval, hsave, p, hload, hst, hid, hnc, hev⟩ :=
      confirmWallet_ok_inv _ _ _ _ _ h
    obtain ⟨evs0, hfind, _⟩ := loadFromLog_ok log cmd.pairId p hload
    subst hid
    exact goodLog_logAppend_existing log cmd.pairId evs0 events hgood hfind hnc
  | setAssurances cmd id events h =>
    obtain ⟨hval, hsave, p, hload, hst, hhas, hid, hev⟩ :=
      setAssurances_ok_inv _ _ _ _ _ h
    obtain ⟨evs0, hfind, _⟩ := loadFromLog_ok log cmd.pairId p hload
    subst hid
    apply goodLog_logAppend_existing log cmd.pairId evs0 events hgood hfind
    intro e he
    rcases hev with hev | hev <;> rw [hev] at he
    · obtain ⟨tx, _, htx⟩ := List.mem_map.mp he
      rw [← htx]
      rfl
    · rcases List.mem_append.mp he with h1 | h1
      · obtain ⟨tx, _, htx⟩ := List.mem_map.mp h1
        rw [← htx]
        rfl
      · fin_cases h1
        rfl
  | addDeposit cmd id events h =>
    obtain ⟨hval, hsave, p, hload, hst, hhas, hid, hev⟩ :=
      addDeposit_ok_inv _ _ _ _ _ h
    obtain ⟨evs0, hfind, _⟩ := loadFromLog_ok log cmd.pairId p hload
    subst hid
    apply goodLog_logAppend_existing log cmd.pairId evs0 events hgood hfind
    intro e he
    rcases hev with hev | hev <;> rw [hev] at he <;> fin_cases he <;> rfl
  | signWithdrawal cmd id events h =>
    obtain ⟨hval, hsave, p, hload, hst, hid, hev⟩ :=
      signWithdrawal_ok_inv _ _ _ _ _ h
    obtain ⟨evs0, hfind, _⟩ := loadFromLog_ok log cmd.pairId p hload
    subst hid
    apply goodLog_logAppend_existing log cmd.pairId evs0 events hgood hfind
    intro e he
    rw [hev] at he
    fin_cases he <;> rfl
  | lpPair cmd now id events h =>
    obtain ⟨hval, hsave, p, hload, hst, hhas, hid, d, hev⟩ :=
      lpPair_ok_inv _ _ _ _ _ _ h
    obtain ⟨evs0, hfind, _⟩ := loadFromLog_ok log cmd.pairId p hload
    subst hid
    apply goodLog_logAppend_existing log cmd.pairId evs0 events hgood hfind
    intro e he
    rw [hev] at he
    fin_cases he
    rfl

theorem goodLog_reachable (log : Log) (hreach : Reachable log) : GoodLog log := by
  unfold Reachable at hreach
  induction hreach with
  | refl => exact ⟨by simp, by intro kv hkv; simp at hkv⟩
  | tail hr hstep ih => exact goodLog_step _ _ ih hstep

/-! ## Status bookkeeping for the monotonicity claim -/

theorem rowMatches_status (s : PairStatus) (assets : List Asset) (assetsOrder : Bool)
    (addrs : List Address) (sv ip : Option Int) (ws pss : Option String)
    (lpr : Option GoFloat) (r : PairRow)
    (h : rowMatches (some s) assets assetsOrder addrs sv ip ws pss lpr r = true) :
    r.status = s := by
  unfold rowMatches at h
  simp only [Bool.and_eq_true] at h
  have h1 := h.1.1.1.1.1.1.1
  simpa using h1

theorem status_after_sc (l : List PairEvent) (s : PairStatus) (p : Pair) :
    ((l ++ [PairEvent.pairStatusChanged s]).foldl Pair.transition p).status = s := by
  rw [List.foldl_append]
  rfl

theorem logAppend_find_cases (log : Log) (id : String) (events evs0 : List PairEvent)
    (hfind : AMap.find? log id = some evs0) (id1 : String)
    (evs0' evs1 : List PairEvent) (hsome0 : AMap.find? log id1 = some evs0')
    (hsome1 : AMap.find? (logAppend log id events) id1 = some evs1) :
    (id1 ≠ id ∧ evs1 = evs0') ∨
    (id1 = id ∧ evs0' = evs0 ∧ evs1 = evs0 ++ events) := by
  by_cases hidq : id1 = id
  · subst hidq
    have heq : evs0' = evs0 := by
      rw [hsome0] at hfind
      exact Option.some.inj hfind
    have h1 : evs1 = evs0 ++ events := by
      rw [find?_logAppend_self log id1 events,
        findD_of_find? log id1 evs0 (heq ▸ hsome0)] at hsome1
      exact (Option.some.inj hsome1).symm
    exact Or.inr ⟨rfl, heq, h1⟩
  · left
    refine ⟨hidq, ?_⟩
    rw [find?_logAppend_other log id id1 events hidq, hsome0] at hsome1
    exact (Option.some.inj hsome1).symm

theorem no_new_pair_on_existing_append (log : Log) (id : String)
    (events evs0 : List PairEvent) (hfind : AMap.find? log id = some evs0)
    (id1 : String) (evs1 : List PairEvent) (hnone : AMap.find? log id1 = none)
    (hsome : AMap.find? (logAppend log id events) id1 = some evs1) : False := by
  by_cases hidq : id1 = id
  · rw [hidq, hfind] at hnone
    simp at hnone
  · rw [find?_logAppend_other log id id1 events hidq, hnone] at hsome
    simp at hsome

theorem append_status_second (log : Log) (tid : String) (events evs0 : List PairEvent)
    (hfind : AMap.find? log tid = some evs0)
    (hchange :
      (events.foldl Pair.transition (Pair.replay evs0)).status =
        (Pair.replay evs0).status ∨
      ∃ i, statusIdx ((Pair.replay evs0).status) = some i ∧
        statusIdx ((events.foldl Pair.transition (Pair.replay evs0)).status) =
          some (i + 1)) :
    ∀ id1 evs0' evs1, AMap.find? log id1 = some evs0' →
      AMap.find? (logAppend log tid events) id1 = some evs1 →
      (Pair.replay evs1).status = (Pair.replay evs0').status ∨
      ∃ i, statusIdx ((Pair.replay evs0').status) = some i ∧
        statusIdx ((Pair.replay evs1).status) = some (i + 1) := by
  intro id1 evs0' evs1 hsome0 hsome1
  rcases logAppend_find_cases log tid events evs0 hfind id1 evs0' evs1 hsome0 hsome1 with
    ⟨hne, he⟩ | ⟨hide, he0, he1⟩
  · left
    rw [he]
  · rw [he0, he1, Pair.replay_append]
    exact hchange

/-- Synchronous fragment of the status progression: along a handler
step from a `Reachable` log — where the pairs read model is caught up
with the store when each command runs — every pair's status either
stays unchanged or advances to the immediately following entry of the
ordered status list, and a pair newly created by a step starts at
waiting. This holds only because the read model is never stale here:
under the asynchronous semantics the match branch, served a stale
waiting row, drives a status backwards (`pair_status_regression`). -/
theorem pair_status_monotonic (log log' : Log) (hreach : Reachable log)
    (hstep : Step log log') :
    (∀ id1 evs1, AMap.find? log id1 = none → AMap.find? log' id1 = some evs1 →
      (Pair.replay evs1).status = PairStatusWaiting) ∧
    (∀ id1 evs0 evs1, AMap.find? log id1 = some evs0 →
      AMap.find? log' id1 = some evs1 →
      (Pair.replay evs1).status = (Pair.replay evs0).status ∨
      ∃ i, statusIdx ((Pair.replay evs0).status) = some i ∧
        statusIdx ((Pair.replay evs1).status) = some (i + 1)) := by
  have hgood : GoodLog log := goodLog_reachable log hreach
  cases hstep with
  | createOrMatch plan newId cmd id events hfresh h =>
    obtain ⟨hval, hsave, plan1, hplan, hc, hbr⟩ :=
      createOrMatch_ok_inv _ _ _ _ _ _ _ _ h
    rcases hbr with ⟨hq, hid, hev⟩ | ⟨first, tail, p, hq, hload, hid, hev⟩
    · constructor
      · intro id1 evs1 hnone hsome
        by_cases hidq : id1 = id
        · subst hidq
          rw [find?_logAppend_self log id1 events,
            findD_of_none log id1 hnone] at hsome
          have hevs : evs1 = events := by
            simpa using (Option.some.inj hsome).symm
          rw [hevs, hev]
          rfl
        · rw [find?_logAppend_other log id id1 events hidq, hnone] at hsome
          simp at hsome
      · intro id1 evs0 evs1 hsome0 hsome1
        by_cases hidq : id1 = id
        · rw [hidq, hid, hfresh] at hsome0
          simp at hsome0
        · rw [find?_logAppend_other log id id1 events hidq, hsome0] at hsome1
          left
          rw [Option.some.inj hsome1]
    · obtain ⟨evs0, hfind, hp⟩ := loadFromLog_ok log first.id p hload
      have hmemf : first ∈ pairsQueryFind (logRows log) (some PairStatusWaiting)
          [getSecondaryAsset cmd.participantAsset plan1.assets, cmd.participantAsset] true []
          (some plan1.quantum) (some plan1.investingPeriod) (some plan1.security)
          (some plan1.strategy) (some plan1.lossProtection) := by
        rw [hq]
        exact List.mem_cons_self _ _
      have hmatch : rowMatches (some PairStatusWaiting)
          [getSecondaryAsset cmd.participantAsset plan1.assets, cmd.participantAsset] true []
          (some plan1.quantum) (some plan1.investingPeriod) (some plan1.security)
          (some plan1.strategy) (some plan1.lossProtection) first = true := by
        unfold pairsQueryFind at hmemf
        exact List.of_mem_filter hmemf
      have hrows : first ∈ logRows log := by
        unfold pairsQueryFind at hmemf
        exact List.mem_of_mem_filter hmemf
      have hstatw : first.status = PairStatusWaiting :=
        rowMatches_status _ _ _ _ _ _ _ _ _ _ hmatch
      obtain ⟨kv, hkvmem, hproj⟩ := List.mem_filterMap.mp (by
        unfold logRows at hrows
        exact hrows)
      have hwf := hgood.2 kv hkvmem
      obtain ⟨r, hr1, hr2, hr3⟩ := projectRow_status kv.1 kv.2 hwf
      have hfr : first = r := by
        rw [hproj] at hr1
        exact Option.some.inj hr1
      have hfid : first.id = kv.1 := by
        rw [hfr]
        exact hr3
      have hfindkv : AMap.find? log kv.1 = some kv.2 :=
        AMap.find?_of_mem_nodup log kv.1 kv.2 hgood.1 (by simpa using hkvmem)
      have hevs0 : evs0 = kv.2 := by
        rw [hfid] at hfind
        rw [hfind] at hfindkv
        exact Option.some.inj hfindkv
      have hstat0 : (Pair.replay evs0).status = PairStatusWaiting := by
        rw [hevs0, ← hr2, ← hfr]
        exact hstatw
      have hfind1 : AMap.find? log first.id = some evs0 := by
        rw [hfid, hevs0]
        exact hfindkv
      constructor
      · intro id1 evs1 hnone hsome
        rw [hid] at hsome
        exact (no_new_pair_on_existing_append log first.id events evs0 hfind1 id1 evs1
          hnone hsome).elim
      · rw [hid]
        refine append_status_second log first.id events evs0 hfind1 ?_
        rw [hev]
        right
        refine ⟨0, ?_, ?_⟩
        · rw [hstat0]
          decide
        · have hsplit : [PairEvent.pairMatched cmd.participantAddress "" "" "",
              PairEvent.pairStatusChanged PairStatusWalletConformation] =
              [PairEvent.pairMatched cmd.participantAddress "" "" ""] ++
              [PairEvent.pairStatusChanged PairStatusWalletConformation] := rfl
          rw [hsplit, status_after_sc]
          decide
  | confirmWallet cmd id events h =>
    obtain ⟨hval, hsave, p, hload, hst, hid, hnc, hev⟩ :=
      confirmWallet_ok_inv _ _ _ _ _ h
    obtain ⟨evs0, hfind, hp⟩ := loadFromLog_ok log cmd.pairId p hload
    have hstat0 : (Pair.replay evs0).status = PairStatusWalletConformation := by
      rw [← hp]
      exact hst
    subst hid
    constructor
    · intro id1 evs1 hnone hsome
      exact (no_new_pair_on_existing_append log cmd.pairId events evs0 hfind id1 evs1
        hnone hsome).elim
    · refine append_status_second log cmd.pairId events evs0 hfind ?_
      rcases hev with hev | hev
      · left
        rw [hev]
        refine Pair.foldl_status_of_not_changes _ ?_ _
        intro e he2
        fin_cases he2
        rfl
      · right
        refine ⟨1, ?_, ?_⟩
        · rw [hstat0]
          decide
        · rw [hev]
          have hsplit : [PairEvent.walletAddressConfirmed cmd.participantAsset
              cmd.participantPublicKey cmd.walletAddresses,
              PairEvent.pairStatusChanged PairStatusAssurance] =
              [PairEvent.walletAddressConfirmed cmd.participantAsset
                cmd.participantPublicKey cmd.walletAddresses] ++
              [PairEvent.pairStatusChanged PairStatusAssurance] := rfl
          rw [hsplit, status_after_sc]
          decide
  | setAssurances cmd id events h =>
    obtain ⟨hval, hsave, p, hload, hst, hhas, hid, hev⟩ :=
      setAssurances_ok_inv _ _ _ _ _ h
    obtain ⟨evs0, hfind, hp⟩ := loadFromLog_ok log cmd.pairId p hload
    have hstat0 : (Pair.replay evs0).status = PairStatusAssurance := by
      rw [← hp]
      exact hst
    subst hid
    constructor
    · intro id1 evs1 hnone hsome
      exact (no_new_pair_on_existing_append log cmd.pairId events evs0 hfind id1 evs1
        hnone hsome).elim
    · refine append_status_second log cmd.pairId events evs0 hfind ?_
      rcases hev with hev | hev
      · left
        rw [hev]
        refine Pair.foldl_status_of_not_changes _ ?_ _
        intro e he2
        obtain ⟨tx, _, htx⟩ := List.mem_map.mp he2
        rw [← htx]
        rfl
      · right
        refine ⟨2, ?_, ?_⟩
        · rw [hstat0]
          decide
        · rw [hev, status_after_sc]
          decide
  | addDeposit cmd id events h =>
    obtain ⟨hval, hsave, p, hload, hst, hhas, hid, hev⟩ :=
      addDeposit_ok_inv _ _ _ _ _ h
    obtain ⟨evs0, hfind, hp⟩ := loadFromLog_ok log cmd.pairId p hload
    have hstat0 : (Pair.replay evs0).status = PairStatusDeposit := by
      rw [← hp]
      exact hst
    subst hid
    constructor
    · intro id1 evs1 hnone hsome
      exact (no_new_pair_on_existing_append log cmd.pairId events evs0 hfind id1 evs1
        hnone hsome).elim
    · refine append_status_second log cmd.pairId events evs0 hfind ?_
      rcases hev with hev | hev
      · left
        rw [hev]
        refine Pair.foldl_status_of_not_changes _ ?_ _
        intro e he2
        fin_cases he2
        rfl
      · right
        refine ⟨3, ?_, ?_⟩
        · rw [hstat0]
          decide
        · rw [hev]
          have hsplit : [PairEvent.assetDeposited cmd.asset cmd.txHash,
              PairEvent.pairStatusChanged PairStatusPreSignWithdrawal] =
              [PairEvent.assetDeposited cmd.asset cmd.txHash] ++
              [PairEvent.pairStatusChanged PairStatusPreSignWithdrawal] := rfl
          rw [hsplit, status_after_sc]
          decide
  | signWithdrawal cmd id events h =>
    obtain ⟨hval, hsave, p, hload, hst, hid, hev⟩ :=
      signWithdrawal_ok_inv _ _ _ _ _ h
    obtain ⟨evs0, hfind, hp⟩ := loadFromLog_ok log cmd.pairId p hload
    have hstat0 : (Pair.replay evs0).status = PairStatusPreSignWithdrawal := by
      rw [← hp]
      exact hst
    subst hid
    constructor
    · intro id1 evs1 hnone hsome
      exact (no_new_pair_on_existing_append log cmd.pairId events evs0 hfind id1 evs1
        hnone hsome).elim
    · refine append_status_second log cmd.pairId events evs0 hfind ?_
      right
      refine ⟨4, ?_, ?_⟩
      · rw [hstat0]
        decide
      · rw [hev]
        have hsplit : [PairEvent.withdrawTxSigned cmd.tx,
            PairEvent.pairStatusChanged PairStatusLP] =
            [PairEvent.withdrawTxSigned cmd.tx] ++
            [PairEvent.pairStatusChanged PairStatusLP] := rfl
        rw [hsplit, status_after_sc]
        decide
  | lpPair cmd now id events h =>
    obtain ⟨hval, hsave, p, hload, hst, hhas, hid, d, hev⟩ :=
      lpPair_ok_inv _ _ _ _ _ _ h
    obtain ⟨evs0, hfind, hp⟩ := loadFromLog_ok log cmd.pairId p hload
    subst hid
    constructor
    · intro id1 evs1 hnone hsome
      exact (no_new_pair_on_existing_append log cmd.pairId events evs0 hfind id1 evs1
        hnone hsome).elim
    · refine append_status_second log cmd.pairId events evs0 hfind ?_
      left
      rw [hev]
      refine Pair.foldl_status_of_not_changes _ ?_ _
      intro e he2
      fin_cases he2
      rfl

/-! ## Write-once bookkeeping for deposits and LP -/

theorem logAppend_find_cases2 (log : Log) (id : String) (events : List PairEvent)
    (id1 : String) (evs1 : List PairEvent)
    (hsome1 : AMap.find? (logAppend log id events) id1 = some evs1) :
    (id1 ≠ id ∧ AMap.find? log id1 = some evs1) ∨
    (id1 = id ∧ evs1 = AMap.findD log id [] ++ events) := by
  by_cases hidq : id1 = id
  · subst hidq
    rw [find?_logAppend_self log id1 events] at hsome1
    exact Or.inr ⟨rfl, (Option.some.inj hsome1).symm⟩
  · rw [find?_logAppend_other log id id1 events hidq] at hsome1
    exact Or.inl ⟨hidq, hsome1⟩

theorem depositWriteCount_append (a : Asset) (l1 l2 : List PairEvent) :
    depositWriteCount a (l1 ++ l2) = depositWriteCount a l1 + depositWriteCount a l2 := by
  simp [depositWriteCount, List.countP_append]

theorem lpWriteCount_append (a : Asset) (l1 l2 : List PairEvent) :
    lpWriteCount a (l1 ++ l2) = lpWriteCount a l1 + lpWriteCount a l2 := by
  simp [lpWriteCount, List.countP_append]

theorem deposits_none_iff (evs : List PairEvent) : ∀ (p : Pair) (a : Asset),
    AMap.find? ((evs.foldl Pair.transition p).deposits) a = none ↔
    (AMap.find? p.deposits a = none ∧ depositWriteCount a evs = 0) := by
  induction evs with
  | nil =>
    intro p a
    simp [depositWriteCount]
  | cons e rest ih =>
    intro p a
    simp only [List.foldl_cons]
    rw [ih (p.transition e) a]
    cases e with
    | assetDeposited a1 th =>
      by_cases ha : a1 = a
      · subst ha
        simp [Pair.transition, AMap.find?_set_self, depositWriteCount, List.countP_cons]
      · have hne : a ≠ a1 := fun h2 => ha h2.symm
        simp [Pair.transition, AMap.find?_set_other _ _ _ _ hne, depositWriteCount,
          List.countP_cons, ha]
    | pairCreated a1 b c d e1 f g h1 =>
      simp [Pair.transition, depositWriteCount, List.countP_cons]
    | pairStatusChanged s =>
      simp [Pair.transition, depositWriteCount, List.countP_cons]
    | pairMatched b c d e1 =>
      simp [Pair.transition, depositWriteCount, List.countP_cons]
    | walletAddressConfirmed a1 b c =>
      simp [Pair.transition, depositWriteCount, List.countP_cons]
    | assetAssuranceSigned a1 tx =>
      simp [Pair.transition, depositWriteCount, List.countP_cons]
    | withdrawTxSigned tx =>
      simp [Pair.transition, depositWriteCount, List.countP_cons]
    | lpDone a1 th d =>
      simp [Pair.transition, depositWriteCount, List.countP_cons]
    | withdrawn th =>
      simp [Pair.transition, depositWriteCount, List.countP_cons]

theorem lp_none_iff (evs : List PairEvent) : ∀ (p : Pair) (a : Asset),
    AMap.find? ((evs.foldl Pair.transition p).lp) a = none ↔
    (AMap.find? p.lp a = none ∧ lpWriteCount a evs = 0) := by
  induction evs with
  | nil =>
    intro p a
    simp [lpWriteCount]
  | cons e rest ih =>
    intro p a
    simp only [List.foldl_cons]
    rw [ih (p.transition e) a]
    cases e with
    | lpDone a1 th d =>
      by_cases ha : a1 = a
      · subst ha
        simp [Pair.transition, AMap.find?_set_self, lpWriteCount, List.countP_cons]
      · have hne : a ≠ a1 := fun h2 => ha h2.symm
        simp [Pair.transition, AMap.find?_set_other _ _ _ _ hne, lpWriteCount,
          List.countP_cons, ha]
    | pairCreated a1 b c d e1 f g h1 =>
      simp [Pair.transition, lpWriteCount, List.countP_cons]
    | pairStatusChanged s =>
      simp [Pair.transition, lpWriteCount, List.countP_cons]
    | pairMatched b c d e1 =>
      simp [Pair.transition, lpWriteCount, List.countP_cons]
    | walletAddressConfirmed a1 b c =>
      simp [Pair.transition, lpWriteCount, List.countP_cons]
    | assetAssuranceSigned a1 tx =>
      simp [Pair.transition, lpWriteCount, List.countP_cons]
    | assetDeposited a1 th =>
      simp [Pair.transition, lpWriteCount, List.countP_cons]
    | withdrawTxSigned tx =>
      simp [Pair.transition, lpWriteCount, List.countP_cons]
    | withdrawn th =>
      simp [Pair.transition, lpWriteCount, List.countP_cons]

theorem hasDeposit_false_count (evs : List PairEvent) (a : Asset)
    (h : (Pair.replay evs).hasDepositForAsset a = false) :
    depositWriteCount a evs = 0 := by
  unfold Pair.hasDepositForAsset at h
  have h2 : AMap.find? (Pair.replay evs).deposits a = none := by
    cases hf : AMap.find? (Pair.replay evs).deposits a
    · rfl
    · rw [hf] at h
      simp at h
  unfold Pair.replay at h2
  exact ((deposits_none_iff evs {} a).mp h2).2

theorem hasLP_false_count (evs : List PairEvent) (a : Asset)
    (h : (Pair.replay evs).hasLPForAsset a = false) : lpWriteCount a evs = 0 := by
  unfold Pair.hasLPForAsset at h
  have h2 : AMap.find? (Pair.replay evs).lp a = none := by
    cases hf : AMap.find? (Pair.replay evs).lp a
    · rfl
    · rw [hf] at h
      simp at h
  unfold Pair.replay at h2
  exact ((lp_none_iff evs {} a).mp h2).2

theorem count_le_one_append_zero (a : Asset) (evs0 events : List PairEvent)
    (h0 : depositWriteCount a evs0 ≤ 1 ∧ lpWriteCount a evs0 ≤ 1)
    (hd : depositWriteCount a events = 0) (hl : lpWriteCount a events = 0) :
    depositWriteCount a (evs0 ++ events) ≤ 1 ∧ lpWriteCount a (evs0 ++ events) ≤ 1 := by
  rw [depositWriteCount_append, lpWriteCount_append, hd, hl]
  simpa using h0

/-- C6 amended: on every reachable log, the deposits[asset] and lp[asset]
entries are written at most once over a pair's lifetime — a second
AddDeposit for an asset fails with already_has_deposit and a second
LPPair fails with already_has_lp — but the claim does not extend to
wallet.addresses and wallet.public_keys[asset], which repeated
ConfirmPairWallet calls rewrite (see the counterexample). -/
theorem deposits_lp_write_once (log : Log) (hreach : Reachable log) :
    (∀ id evs a, AMap.find? log id = some evs →
      depositWriteCount a evs ≤ 1 ∧ lpWriteCount a evs ≤ 1) ∧
    (∀ (p : Pair) (cmd : AddDeposit) (save : Option SaveErr),
      cmd.validate = true → p.status = PairStatusDeposit →
      p.hasAsset cmd.asset = true → p.hasDepositForAsset cmd.asset = true →
      addDepositHandle (.ok p) save cmd = .error ErrAlreadyHasDeposit) ∧
    (∀ (p : Pair) (cmd : LPPair) (save : Option SaveErr) (now : Int),
      cmd.validate = true → p.status = PairStatusLP →
      p.hasAsset cmd.asset = true → p.hasLPForAsset cmd.asset = true →
      lpPairHandle (.ok p) save now cmd = .error ErrAlreadyHasLP) := by
  refine ⟨?_, ?_, ?_⟩
  · unfold Reachable at hreach
    induction hreach with
    | refl =>
      intro id evs a h
      simp [AMap.find?] at h
    | @tail b c hr hstep ih =>
      intro id evs a hfind
      cases hstep with
      | createOrMatch plan newId cmd id2 events hfresh h =>
        obtain ⟨hval, hsave, plan1, hplan, hc, hbr⟩ :=
          createOrMatch_ok_inv _ _ _ _ _ _ _ _ h
        rcases logAppend_find_cases2 b id2 events id evs hfind with ⟨hne, hf⟩ | ⟨hide, hevs⟩
        · exact ih id evs a hf
        · rcases hbr with ⟨hq, hid, hev⟩ | ⟨first, tail2, p, hq, hload, hid, hev⟩
          · rw [hevs, hev, hid, findD_of_none b newId hfresh]
            constructor <;>
              simp [depositWriteCount, lpWriteCount, List.countP_cons]
          · obtain ⟨evs0, hfind0, hp⟩ := loadFromLog_ok b first.id p hload
            rw [hevs, hid, findD_of_find? b first.id evs0 hfind0]
            refine count_le_one_append_zero a evs0 events (ih first.id evs0 a hfind0) ?_ ?_ <;>
              rw [hev] <;>
              simp [depositWriteCount, lpWriteCount, List.countP_cons]
      | confirmWallet cmd id2 events h =>
        obtain ⟨hval, hsave, p, hload, hst, hid, hnc, hev⟩ :=
          confirmWallet_ok_inv _ _ _ _ _ h
        obtain ⟨evs0, hfind0, hp⟩ := loadFromLog_ok b cmd.pairId p hload
        subst hid
        rcases logAppend_find_cases2 b cmd.pairId events id evs hfind with ⟨hne, hf⟩ | ⟨hide, hevs⟩
        · exact ih id evs a hf
        · rw [hevs, findD_of_find? b cmd.pairId evs0 hfind0]
          refine count_le_one_append_zero a evs0 events (ih cmd.pairId evs0 a hfind0) ?_ ?_ <;>
            rcases hev with hev | hev <;> rw [hev] <;>
            simp [depositWriteCount, lpWriteCount, List.countP_cons]
      | setAssurances cmd id2 events h =>
        obtain ⟨hval, hsave, p, hload, hst, hhas, hid, hev⟩ :=
          setAssurances_ok_inv _ _ _ _ _ h
        obtain ⟨evs0, hfind0, hp⟩ := loadFromLog_ok b cmd.pairId p hload
        subst hid
        rcases logAppend_find_cases2 b cmd.pairId events id evs hfind with ⟨hne, hf⟩ | ⟨hide, hevs⟩
        · exact ih id evs a hf
        · rw [hevs, findD_of_find? b cmd.pairId evs0 hfind0]
          have hmap0 : depositWriteCount a (cmd.assurances.map fun tx =>
              PairEvent.assetAssuranceSigned cmd.participantAsset tx) = 0 := by
            refine List.countP_eq_zero.mpr ?_
            intro e he
            obtain ⟨tx, _, htx⟩ := List.mem_map.mp he
            rw [← htx]
            simp
          have hmap1 : lpWriteCount a (cmd.assurances.map fun tx =>
              PairEvent.assetAssuranceSigned cmd.participantAsset tx) = 0 := by
            refine List.countP_eq_zero.mpr ?_
            intro e he
            obtain ⟨tx, _, htx⟩ := List.mem_map.mp he
            rw [← htx]
            simp
          refine count_le_one_append_zero a evs0 events (ih cmd.pairId evs0 a hfind0) ?_ ?_ <;>
            rcases hev with hev | hev <;> rw [hev] <;>
            simp [depositWriteCount_append, lpWriteCount_append, hmap0, hmap1,
              depositWriteCount, lpWriteCount, List.countP_cons] at hmap0 hmap1 ⊢
      | addDeposit cmd id2 events h =>
        obtain ⟨hval, hsave, p, hload, hst, hhas, hid, hev⟩ :=
          addDeposit_ok_inv _ _ _ _ _ h
        obtain ⟨evs0, hfind0, hp⟩ := loadFromLog_ok b cmd.pairId p hload
        subst hid
        rcases logAppend_find_cases2 b cmd.pairId events id evs hfind with ⟨hne, hf⟩ | ⟨hide, hevs⟩
        · exact ih id evs a hf
        · rw [hevs, findD_of_find? b cmd.pairId evs0 hfind0]
          have hih := ih cmd.pairId evs0 a hfind0
          by_cases ha : a = cmd.asset
          · subst ha
            have hz : depositWriteCount cmd.asset evs0 = 0 := by
              refine hasDeposit_false_count evs0 cmd.asset ?_
              rw [← hp]
              exact hhas
            constructor
            · rw [depositWriteCount_append, hz]
              rcases hev with hev | hev <;> rw [hev] <;>
                simp [depositWriteCount, List.countP_cons]
            · rw [lpWriteCount_append]
              have hlz : lpWriteCount cmd.asset events = 0 := by
                rcases hev with hev | hev <;> rw [hev] <;>
                  simp [lpWriteCount, List.countP_cons]
              rw [hlz]
              simpa using hih.2
          · have ha2 : ¬ cmd.asset = a := fun h2 => ha h2.symm
            refine count_le_one_append_zero a evs0 events hih ?_ ?_ <;>
              rcases hev with hev | hev <;> rw [hev] <;>
              simp [depositWriteCount, lpWriteCount, List.countP_cons, ha2]
      | signWithdrawal cmd id2 events h =>
        obtain ⟨hval, hsave, p, hload, hst, hid, hev⟩ :=
          signWithdrawal_ok_inv _ _ _ _ _ h
        obtain ⟨evs0, hfind0, hp⟩ := loadFromLog_ok b cmd.pairId p hload
        subst hid
        rcases logAppend_find_cases2 b cmd.pairId events id evs hfind with ⟨hne, hf⟩ | ⟨hide, hevs⟩
        · exact ih id evs a hf
        · rw [hevs, findD_of_find? b cmd.pairId evs0 hfind0]
          refine count_le_one_append_zero a evs0 events (ih cmd.pairId evs0 a hfind0) ?_ ?_ <;>
            rw [hev] <;>
            simp [depositWriteCount, lpWriteCount, List.countP_cons]
      | lpPair cmd now id2 events h =>
        obtain ⟨hval, hsave, p, hload, hst, hhas, hid, d, hev⟩ :=
          lpPair_ok_inv _ _ _ _ _ _ h
        obtain ⟨evs0, hfind0, hp⟩ := loadFromLog_ok b cmd.pairId p hload
        subst hid
        rcases logAppend_find_cases2 b cmd.pairId events id evs hfind with ⟨hne, hf⟩ | ⟨hide, hevs⟩
        · exact ih id evs a hf
        · rw [hevs, findD_of_find? b cmd.pairId evs0 hfind0]
          have hih := ih cmd.pairId evs0 a hfind0
          by_cases ha : a = cmd.asset
          · subst ha
            have hz : lpWriteCount cmd.asset evs0 = 0 := by
              refine hasLP_false_count evs0 cmd.asset ?_
              rw [← hp]
              exact hhas
            constructor
            · rw [depositWriteCount_append]
              have hdz : depositWriteCount cmd.asset events = 0 := by
                rw [hev]
                simp [depositWriteCount, List.countP_cons]
              rw [hdz]
              simpa using hih.1
            · rw [lpWriteCount_append, hz]
              rw [hev]
              simp [lpWriteCount, List.countP_cons]
          · have ha2 : ¬ cmd.asset = a := fun h2 => ha h2.symm
            refine count_le_one_append_zero a evs0 events hih ?_ ?_ <;>
              rw [hev] <;>
              simp [depositWriteCount, lpWriteCount, List.countP_cons, ha2]
  · intro p cmd save hv hst hA hdep
    simp [addDepositHandle, hv, hst, hA, hdep]
  · intro p cmd save now hv hst hA hlp
    simp [lpPairHandle, hv, hst, hA, hlp]

/-- Witness for the C6 amended theorem: on the demo log after two
confirmations the write-once bound holds for the stored stream, and a
second AddDeposit resp. LPPair on an already-written asset fails. -/
theorem deposits_lp_write_once_witness :
    (depositWriteCount "BTC.BTC" demoCreateEvents ≤ 1 ∧
     lpWriteCount "BTC.BTC" demoCreateEvents ≤ 1) ∧
    addDepositHandle
      (.ok { status := PairStatusDeposit, assets := ["THOR.RUNE", "BTC.BTC"],
             deposits := [("BTC.BTC", "h1")] }) none
      { pairId := uuidPair, asset := "BTC.BTC", txHash := "h2" } =
      .error ErrAlreadyHasDeposit := by
  have hr : Reachable demoLog1 :=
    Relation.ReflTransGen.tail .refl
      (Step.createOrMatch [] (.ok demoPlan) uuidPair cmdCreate uuidPair demoCreateEvents
        (by decide) (by decide))
  refine ⟨(deposits_lp_write_once demoLog1 hr).1 uuidPair demoCreateEvents
    "BTC.BTC" (by decide), ?_⟩
  exact (deposits_lp_write_once demoLog1 hr).2.1
    { status := PairStatusDeposit, assets := ["THOR.RUNE", "BTC.BTC"],
      deposits := [("BTC.BTC", "h1")] }
    { pairId := uuidPair, asset := "BTC.BTC", txHash := "h2" } none
    (by decide) (by decide) (by decide) (by decide)

/-- Concrete instance of the synchronous fragment: the first create
step from the empty log produces a pair in status waiting. -/
theorem pair_status_monotonic_witness :
    Reachable ([] : Log) ∧ Step [] demoLog1 ∧
    (Pair.replay demoCreateEvents).status = PairStatusWaiting :=
  ⟨Relation.ReflTransGen.refl,
   Step.createOrMatch [] (.ok demoPlan) uuidPair cmdCreate uuidPair demoCreateEvents
     (by decide) (by decide),
   (pair_status_monotonic [] demoLog1 Relation.ReflTransGen.refl
     (Step.createOrMatch [] (.ok demoPlan) uuidPair cmdCreate uuidPair demoCreateEvents
       (by decide) (by decide))).1 uuidPair demoCreateEvents (by decide) (by decide)⟩

/-- C4: the SetPairAssurances handler requires assurances with nonce 0
and nonce 2, for THOR.RUNE additionally nonce 4; a missing nonce fails
with invalid_assurances carrying the first missing nonce (checked in the
order 0, 2, 4) in the meta, before any aggregate access, so no events are
appended; for any other asset only nonces 0 and 2 are required. -/
theorem setPairAssurances_nonce_validation (loadResult : Except LoadErr Pair)
    (saveOutcome : Option SaveErr) (cmd : SetPairAssurances)
    (hv : cmd.validate = true) :
    (hasAssuranceWithNonce cmd.assurances 0 = false →
      setPairAssurancesHandle loadResult saveOutcome cmd =
        .error (ErrInvalidAssurances.includeMeta
          [("missing_assurance", "missing assurance with nonce 0")])) ∧
    (hasAssuranceWithNonce cmd.assurances 0 = true →
     hasAssuranceWithNonce cmd.assurances 2 = false →
      setPairAssurancesHandle loadResult saveOutcome cmd =
        .error (ErrInvalidAssurances.includeMeta
          [("missing_assurance", "missing assurance with nonce 2")])) ∧
    (cmd.participantAsset = "THOR.RUNE" →
     hasAssuranceWithNonce cmd.assurances 0 = true →
     hasAssuranceWithNonce cmd.assurances 2 = true →
     hasAssuranceWithNonce cmd.assurances 4 = false →
      setPairAssurancesHandle loadResult saveOutcome cmd =
        .error (ErrInvalidAssurances.includeMeta
          [("missing_assurance", "missing assurance with nonce 4")])) ∧
    (cmd.participantAsset ≠ "THOR.RUNE" →
     hasAssuranceWithNonce cmd.assurances 0 = true →
     hasAssuranceWithNonce cmd.assurances 2 = true →
      validateAssurances cmd.participantAsset cmd.assurances = none) := by
  refine ⟨?_, ?_, ?_, ?_⟩ <;> intros <;>
    simp [setPairAssurancesHandle, validateAssurances, hv, *]

/-- Witness for the C4 theorem: a THOR.RUNE submission with nonces 0 and
2 but no nonce 4 is rejected with the nonce-4 meta. -/
theorem setPairAssurances_nonce_validation_witness :
    (SetPairAssurances.validate
      { pairId := uuidPair, participantAsset := "THOR.RUNE",
        assurances := [txWithNonce 0, txWithNonce 2] } = true) ∧
    setPairAssurancesHandle (.error .aggregateNotFound) none
      { pairId := uuidPair, participantAsset := "THOR.RUNE",
        assurances := [txWithNonce 0, txWithNonce 2] } =
      .error (ErrInvalidAssurances.includeMeta
        [("missing_assurance", "missing assurance with nonce 4")]) :=
  ⟨by decide,
   (setPairAssurances_nonce_validation (.error .aggregateNotFound) none
     { pairId := uuidPair, participantAsset := "THOR.RUNE",
       assurances := [txWithNonce 0, txWithNonce 2] }
     (by decide)).2.2.1 (by decide) (by decide) (by decide) (by decide)⟩

/-- C10: for an existing pair in pre_sign_withdrawal every well-formed
SignWithdrawal succeeds regardless of who issues it: the handler checks
neither asset membership nor any participant identity (the command has no
such field), and it unconditionally emits WithdrawTxSigned followed by
PairStatusChanged(lp); its only error cases are a failed validation, a
missing pair, a wrong status, or a failed save. -/
theorem signWithdrawal_unconditional (loadResult : Except LoadErr Pair)
    (saveOutcome : Option SaveErr) (cmd : SignWithdrawal) :
    (cmd.validate = false →
      signWithdrawalHandle loadResult saveOutcome cmd = .error .validationFailed) ∧
    (cmd.validate = true → loadResult = .error .aggregateNotFound →
      signWithdrawalHandle loadResult saveOutcome cmd = .error ErrPairNotFound) ∧
    (cmd.validate = true → ∀ m, loadResult = .error (.other m) →
      signWithdrawalHandle loadResult saveOutcome cmd =
        .error (.wrap "failed to get pair" (.load (.other m)))) ∧
    (cmd.validate = true → ∀ p, loadResult = .ok p →
     p.status ≠ PairStatusPreSignWithdrawal →
      signWithdrawalHandle loadResult saveOutcome cmd = .error ErrInvalidPairStatus) ∧
    (cmd.validate = true → ∀ p, loadResult = .ok p →
     p.status = PairStatusPreSignWithdrawal → saveOutcome = none →
      signWithdrawalHandle loadResult saveOutcome cmd =
        .ok (cmd.pairId, [.withdrawTxSigned cmd.tx, .pairStatusChanged PairStatusLP])) ∧
    (cmd.validate = true → ∀ p e, loadResult = .ok p →
     p.status = PairStatusPreSignWithdrawal → saveOutcome = some e →
      signWithdrawalHandle loadResult saveOutcome cmd =
        .error (.wrap "failed to save pair" (.save e))) := by
  refine ⟨?_, ?_, ?_, ?_, ?_, ?_⟩ <;> intros <;>
    simp [signWithdrawalHandle, *]

/-- Witness for the C10 theorem: a pair whose assets and addresses have
nothing to do with the submitted transaction still accepts the
withdrawal signature. -/
theorem signWithdrawal_unconditional_witness :
    (SignWithdrawal.validate { pairId := uuidPair, tx := txWithNonce 1 } = true) ∧
    signWithdrawalHandle
      (.ok { status := PairStatusPreSignWithdrawal, assets := ["X.X", "Y.Y"] }) none
      { pairId := uuidPair, tx := txWithNonce 1 } =
      .ok (uuidPair, [.withdrawTxSigned (txWithNonce 1),
        .pairStatusChanged PairStatusLP]) :=
  ⟨by decide,
   (signWithdrawal_unconditional
     (.ok { status := PairStatusPreSignWithdrawal, assets := ["X.X", "Y.Y"] }) none
     { pairId := uuidPair, tx := txWithNonce 1 }).2.2.2.2.1 (by decide)
     { status := PairStatusPreSignWithdrawal, assets := ["X.X", "Y.Y"] } rfl
     (by decide) rfl⟩

/-- C7: the pairs projection callback issues its table update and its
cursor increment as two separate autocommitted statements with no
transaction around them, so a crash or failure between the two leaves the
insert committed while the cursor stays, contradicting the claimed
one-transaction coupling with a cursor advance of exactly 1 or a full
rollback; the transactional helper BaseProjection.Begin exists but is
unused by the callback. -/
theorem pairsQueryCallback_no_transaction :
    pairsQueryCallbackOps uuidPair demoCreatedEvent =
      [.execInsertPair uuidPair, .execIncrementCursor "pairs_query"] ∧
    DbOp.beginTx ∉ pairsQueryCallbackOps uuidPair demoCreatedEvent ∧
    DbOp.commitTx ∉ pairsQueryCallbackOps uuidPair demoCreatedEvent ∧
    runDbOps {} ((pairsQueryCallbackOps uuidPair demoCreatedEvent).take 1) =
      { pairsTable := [uuidPair], cursor := 0 } ∧
    runDbOps {} (pairsQueryCallbackOps uuidPair demoCreatedEvent) =
      { pairsTable := [uuidPair], cursor := 1 } ∧
    baseProjectionBeginOps "pairs_query" =
      [.beginTx, .execIncrementCursor "pairs_query"] := by
  refine ⟨rfl, by decide, by decide, rfl, rfl, rfl⟩

/-- C9 counterexample: CreateNewPlan accepts a plan whose two asset
identifiers are equal, so an accepted plan need not have 2 distinct
assets; for such a plan the computed secondary asset is the empty
identifier. -/
theorem createNewPlan_duplicate_assets_counterexample :
    CreateNewPlan.validate cmdPlanDup = true ∧
    createNewPlanHandle uuidPlan none cmdPlanDup = .ok (uuidPlan, planDupRow) ∧
    planDupRow.assets = ["BTC.BTC", "BTC.BTC"] ∧
    ¬ planDupRow.assets.Nodup ∧
    getSecondaryAsset "BTC.BTC" planDupRow.assets = "" := by
  refine ⟨by decide, by decide, rfl, by decide, rfl⟩

/-- C9 amended: an accepted plan has exactly 2 asset identifiers, copied
verbatim into the plan, but distinctness is not enforced; when the two
assets are distinct and the participant asset is one of them, the
secondary asset is the other one, and the created pair's asset list is
the 2-element duplicate-free list [participant, secondary]. -/
theorem createNewPlan_assets (cmd : CreateNewPlan) (newId : String)
    (hv : cmd.validate = true) :
    cmd.assets.length = 2 ∧
    createNewPlanHandle newId none cmd = .ok (newId, planRowFor newId cmd) ∧
    (planRowFor newId cmd).assets = cmd.assets ∧
    (∀ x y a, cmd.assets = [x, y] → x ≠ y → containsAsset cmd.assets a = true →
      getSecondaryAsset a cmd.assets ≠ a ∧
      containsAsset cmd.assets (getSecondaryAsset a cmd.assets) = true ∧
      ([a, getSecondaryAsset a cmd.assets]).Nodup ∧
      ∀ paddr sv ip ws pss lpr,
        (Pair.transition {}
          (.pairCreated a paddr (getSecondaryAsset a cmd.assets) sv ip ws pss lpr)).assets
          = [a, getSecondaryAsset a cmd.assets]) := by
  have hlen : cmd.assets.length = 2 := by
    simp [CreateNewPlan.validate] at hv
    exact hv.1.1.1.1.1.1
  refine ⟨hlen, by simp [createNewPlanHandle, hv], rfl, ?_⟩
  intro x y a hxy hne hmem
  rw [hxy] at hmem ⊢
  simp only [containsAsset, List.any_cons, List.any_nil, Bool.or_false,
    Bool.or_eq_true, decide_eq_true_eq] at hmem
  rcases hmem with h | h
  · rw [← h]
    have hsec : getSecondaryAsset x [x, y] = y := by
      simp [getSecondaryAsset, hne, Ne.symm hne]
    rw [hsec]
    refine ⟨Ne.symm hne, by simp [containsAsset], by simp [hne], ?_⟩
    intro paddr sv ip ws pss lpr
    simp [Pair.transition]
  · rw [← h]
    have hsec : getSecondaryAsset y [x, y] = x := by
      simp [getSecondaryAsset, hne]
    rw [hsec]
    refine ⟨hne, by simp [containsAsset], by simp [Ne.symm hne], ?_⟩
    intro paddr sv ip ws pss lpr
    simp [Pair.transition]

/-- Witness for the C9 amended theorem at a concrete distinct-asset
command. -/
theorem createNewPlan_assets_witness :
    (CreateNewPlan.validate
      { assets := ["THOR.RUNE", "BTC.BTC"], security := "2-2",
        strategy := "equal_share", quantum := 100, lossProtection := ratTenth,
        investingPeriod := 4 } = true) ∧
    ({ assets := ["THOR.RUNE", "BTC.BTC"], security := "2-2",
       strategy := "equal_share", quantum := 100, lossProtection := ratTenth,
       investingPeriod := 4 : CreateNewPlan }).assets.length = 2 :=
  ⟨by decide,
   (createNewPlan_assets
     { assets := ["THOR.RUNE", "BTC.BTC"], security := "2-2",
       strategy := "equal_share", quantum := 100, lossProtection := ratTenth,
       investingPeriod := 4 } uuidPlan (by decide)).1⟩

/-- C8 counterexample: under a concrete instantiation of the abstract
crypto primitives the source verifier accepts a signature while the
spec's described procedure (personal-sign prefix hash, V adjustment,
recovered address compared with the token's address) rejects it: the
source never derives an address, it compares the recovered public key. -/
theorem authVerify_procedure_counterexample :
    Token.verifyChallenge toyCrypto toyToken toySignature = .ok () ∧
    authVerify toyCrypto [("tid", toyToken)] "tid" toySignature =
      .ok [("tid", { toyToken with verified := true })] ∧
    specEthereumVerify toyCrypto toyToken toySignature = false ∧
    toyToken.verified = false := by
  refine ⟨by decide, by decide, by decide, rfl⟩

/-- C8 amended: Verify hashes the raw challenge with keccak256 (no
personal-sign prefix), recovers the public key from the signature exactly
as submitted (no V adjustment) and succeeds iff the recovered key equals
the token's recorded public key and the prefix-free signature verifies;
the token's address and chain play no role; on success the token is
re-stored with verified=true, on failure auth_verification_failed is
returned and the cache is untouched; a missing token gives auth_expired. -/
theorem authVerify_characterization (C : EthCrypto) (cache : AMap String Token)
    (id : String) (sig : List Nat) :
    (AMap.find? cache id = none →
      authVerify C cache id sig = .error ErrAuthenticationExpired) ∧
    (∀ t e, AMap.find? cache id = some t →
     Token.verifyChallenge C t sig = .error e →
      authVerify C cache id sig =
        .error (ErrAuthenticationVerificationFailed.includeMeta [("error", e)])) ∧
    (∀ t, AMap.find? cache id = some t →
     Token.verifyChallenge C t sig = .ok () →
      authVerify C cache id sig =
        .ok (AMap.set cache id { t with verified := true })) ∧
    (∀ t a ch, Token.verifyChallenge C { t with address := a, chain := ch } sig =
      Token.verifyChallenge C t sig) ∧
    (∀ t : Token, Token.verifyChallenge C t sig = .ok () ↔
      (C.ecrecover (C.keccak256 t.challenge) sig = .ok t.publicKey ∧
       C.verifySignature t.publicKey (C.keccak256 t.challenge) sig.dropLast = true)) := by
  refine ⟨?_, ?_, ?_, ?_, ?_⟩
  · intro h
    simp [authVerify, h]
  · intro t e ht he
    simp [authVerify, ht, he]
  · intro t ht he
    simp [authVerify, ht, he]
  · intro t a ch
    rfl
  · intro t
    cases hrec : C.ecrecover (C.keccak256 t.challenge) sig with
    | error e => simp [Token.verifyChallenge, hrec]
    | ok pk =>
      by_cases hpk : pk = t.publicKey
      · subst hpk
        by_cases hvs : C.verifySignature t.publicKey (C.keccak256 t.challenge) sig.dropLast = true
        · simp [Token.verifyChallenge, hrec, hvs]
        · simp [Token.verifyChallenge, hrec, hvs]
      · simp [Token.verifyChallenge, hrec, hpk]

/-- Witness for the C8 amended theorem at the toy instantiation. -/
theorem authVerify_characterization_witness :
    (AMap.find? [("tid", toyToken)] "tid" = some toyToken) ∧
    authVerify toyCrypto [("tid", toyToken)] "tid" toySignature =
      .ok (AMap.set [("tid", toyToken)] "tid" { toyToken with verified := true }) :=
  ⟨by decide,
   (authVerify_characterization toyCrypto [("tid", toyToken)] "tid"
     toySignature).2.2.1 toyToken (by decide) (by decide)⟩

/-- C1 counterexample: a CreateOrMatchPair command whose asset is not in
the plan fails with the error code invalid_asset_for_pair, not with the
claimed code invalid_asset_for_plan. -/
theorem createOrMatch_error_code_counterexample :
    createOrMatchPairHandle (.ok demoPlan) [] noLoad uuidPair none cmdWrongAsset =
      .error (GoErr.common "invalid_asset_for_pair"
        "participant asset is not valid for the pair" []) ∧
    "invalid_asset_for_pair" ≠ "invalid_asset_for_plan" := by
  refine ⟨by decide, by decide⟩

/-- C1 amended: with the error code invalid_asset_for_pair, the handler
behaves as claimed: an asset outside the plan fails; with no waiting
read-model pair carrying assets ordered [secondary, participant] and all
plan parameters equal it emits PairCreated then PairStatusChanged(waiting)
on a fresh id and returns it; otherwise it loads the first candidate,
emits PairMatched then PairStatusChanged(wallet_conformation) on it and
returns that candidate's id. -/
theorem createOrMatch_branches (plan : PlanRow) (rows : List PairRow)
    (loadPair : String → Except LoadErr Pair) (newId : String)
    (cmd : CreateOrMatchPair) (hv : cmd.validate = true) :
    (containsAsset plan.assets cmd.participantAsset = false →
      createOrMatchPairHandle (.ok plan) rows loadPair newId none cmd =
        .error ErrInvalidAssetForPair) ∧
    (containsAsset plan.assets cmd.participantAsset = true →
     pairsQueryFind rows (some PairStatusWaiting)
        [getSecondaryAsset cmd.participantAsset plan.assets, cmd.participantAsset] true []
        (some plan.quantum) (some plan.investingPeriod) (some plan.security)
        (some plan.strategy) (some plan.lossProtection) = [] →
      createOrMatchPairHandle (.ok plan) rows loadPair newId none cmd =
        .ok (newId,
          [.pairCreated cmd.participantAsset cmd.participantAddress
            (getSecondaryAsset cmd.participantAsset plan.assets) plan.quantum
            plan.investingPeriod plan.security plan.strategy plan.lossProtection,
           .pairStatusChanged PairStatusWaiting])) ∧
    (∀ first rest p, containsAsset plan.assets cmd.participantAsset = true →
     pairsQueryFind rows (some PairStatusWaiting)
        [getSecondaryAsset cmd.participantAsset plan.assets, cmd.participantAsset] true []
        (some plan.quantum) (some plan.investingPeriod) (some plan.security)
        (some plan.strategy) (some plan.lossProtection) = first :: rest →
     loadPair first.id = .ok p →
      createOrMatchPairHandle (.ok plan) rows loadPair newId none cmd =
        .ok (first.id,
          [.pairMatched cmd.participantAddress "" "" "",
           .pairStatusChanged PairStatusWalletConformation])) := by
  refine ⟨?_, ?_, ?_⟩ <;> intros <;>
    simp [createOrMatchPairHandle, hv, *]

/-- Witness for the C1 amended theorem: the create branch on an empty
read model. -/
theorem createOrMatch_branches_witness :
    (cmdCreate.validate = true) ∧
    (containsAsset demoPlan.assets cmdCreate.participantAsset = true) ∧
    createOrMatchPairHandle (.ok demoPlan) [] noLoad uuidPair none cmdCreate =
      .ok (uuidPair,
        [.pairCreated cmdCreate.participantAsset cmdCreate.participantAddress
          (getSecondaryAsset cmdCreate.participantAsset demoPlan.assets) demoPlan.quantum
          demoPlan.investingPeriod demoPlan.security demoPlan.strategy
          demoPlan.lossProtection,
         .pairStatusChanged PairStatusWaiting]) :=
  ⟨by decide, by decide,
   (createOrMatch_branches demoPlan [] noLoad uuidPair cmdCreate (by decide)).2.1
     (by decide) (by decide)⟩

/-- C2 counterexample: when the save of a matched pair fails with the
optimistic ConcurrencyConflict, the handler returns the wrapped conflict
immediately: there is no retry and no match_contested error anywhere in
the code. -/
theorem createOrMatch_conflict_surfaced_counterexample :
    createOrMatchPairHandle (.ok demoPlan) (logRows demoLog1) (loadFromLog demoLog1)
      uuidOther (some .concurrencyConflict) cmdMatch =
      .error (.wrap "failed to save pair" (.save .concurrencyConflict)) ∧
    isCommonWithCode
      (createOrMatchPairHandle (.ok demoPlan) (logRows demoLog1) (loadFromLog demoLog1)
        uuidOther (some .concurrencyConflict) cmdMatch) "match_contested" = false := by
  refine ⟨by decide, by decide⟩

/-- C2 amended: the handler performs no retry: whenever the save step is
reached (create branch, or match branch with a loadable candidate) and
the save fails — in particular with ConcurrencyConflict — the wrapped
save error is returned at once; and no invocation ever returns an error
with code match_contested. -/
theorem createOrMatch_no_retry (plan : PlanRow) (rows : List PairRow)
    (loadPair : String → Except LoadErr Pair) (newId : String) (e : SaveErr)
    (cmd : CreateOrMatchPair) (hv : cmd.validate = true)
    (hc : containsAsset plan.assets cmd.participantAsset = true) :
    (pairsQueryFind rows (some PairStatusWaiting)
        [getSecondaryAsset cmd.participantAsset plan.assets, cmd.participantAsset] true []
        (some plan.quantum) (some plan.investingPeriod) (some plan.security)
        (some plan.strategy) (some plan.lossProtection) = [] →
      createOrMatchPairHandle (.ok plan) rows loadPair newId (some e) cmd =
        .error (.wrap "failed to save pair" (.save e))) ∧
    (∀ first rest p, pairsQueryFind rows (some PairStatusWaiting)
        [getSecondaryAsset cmd.participantAsset plan.assets, cmd.participantAsset] true []
        (some plan.quantum) (some plan.investingPeriod) (some plan.security)
        (some plan.strategy) (some plan.lossProtection) = first :: rest →
     loadPair first.id = .ok p →
      createOrMatchPairHandle (.ok plan) rows loadPair newId (some e) cmd =
        .error (.wrap "failed to save pair" (.save e))) ∧
    (∀ (planR : Except GoErr PlanRow) (save2 : Option SaveErr) (c2 : CreateOrMatchPair),
      isCommonWithCode (createOrMatchPairHandle planR rows loadPair newId save2 c2)
        "match_contested" = false) := by
  refine ⟨?_, ?_, ?_⟩
  · intro hq
    simp [createOrMatchPairHandle, hv, hc, hq]
  · intro first rest p hq hl
    simp [createOrMatchPairHandle, hv, hc, hq, hl]
  · intro planR save2 c2
    by_cases hval : c2.validate = true
    · cases planR with
      | error e1 => simp [createOrMatchPairHandle, hval, isCommonWithCode]
      | ok plan2 =>
        by_cases hc2 : containsAsset plan2.assets c2.participantAsset = true
        · cases hq : pairsQueryFind rows (some PairStatusWaiting)
            [getSecondaryAsset c2.participantAsset plan2.assets, c2.participantAsset] true []
            (some plan2.quantum) (some plan2.investingPeriod) (some plan2.security)
            (some plan2.strategy) (some plan2.lossProtection) with
          | nil =>
            cases save2 <;>
              simp [createOrMatchPairHandle, hval, hc2, hq, isCommonWithCode]
          | cons first rest =>
            cases hl : loadPair first.id with
            | error e2 =>
              simp [createOrMatchPairHandle, hval, hc2, hq, hl, isCommonWithCode]
            | ok p2 =>
              cases save2 <;>
                simp [createOrMatchPairHandle, hval, hc2, hq, hl, isCommonWithCode]
        · simp [createOrMatchPairHandle, hval, hc2, isCommonWithCode,
            ErrInvalidAssetForPair]
    · simp [createOrMatchPairHandle, hval, isCommonWithCode]

/-- C3: the first wallet confirmation on a freshly matched pair is
rejected. PairMatched creates the wallet with an empty address map, so on
the first ConfirmPairWallet the handler's prior-confirmation guard
(wallet non-nil) already fires and compares the submitted addresses with
the empty recorded map; any submission with a non-empty address therefore
fails invalid_wallet_addresses, although no prior confirmation exists.
The failing state is reachable by a create step followed by a match
step. -/
theorem confirmWallet_first_confirmation_rejected :
    Reachable demoLog2 ∧
    loadFromLog demoLog2 uuidPair = .ok demoMatchedPair ∧
    demoMatchedPair.status = PairStatusWalletConformation ∧
    demoMatchedPair.wallet =
      some { publicKeys := [], addresses := [], encryptionKey := "", hexChainCode := "" } ∧
    cmdConfirmReal.validate = true ∧
    confirmPairWalletHandle (loadFromLog demoLog2 uuidPair) none cmdConfirmReal =
      .error ErrInvalidWalletAddresses := by
  have s1 : Step [] demoLog1 :=
    Step.createOrMatch [] (.ok demoPlan) uuidPair cmdCreate uuidPair demoCreateEvents
      (by decide) (by decide)
  have s2 : Step demoLog1 demoLog2 :=
    Step.createOrMatch demoLog1 (.ok demoPlan) uuidOther cmdMatch uuidPair demoMatchEvents
      (by decide) (by decide)
  refine ⟨Relation.ReflTransGen.tail (Relation.ReflTransGen.tail .refl s1) s2,
    by decide, by decide, by decide, by decide, by decide⟩

/-- C6 counterexample: on a reachable pair the same participant can run
ConfirmPairWallet twice while the status stays wallet_conformation (the
empty-address submissions pass the recorded-map comparison), so the
wallet.public_keys entry of one asset is written twice — with different
values — and wallet.addresses is written twice as well. -/
theorem walletKeys_rewritten_counterexample :
    Reachable demoLog4 ∧
    AMap.find? demoLog4 uuidPair = some demoEventsC6 ∧
    pkWriteCount "THOR.RUNE" demoEventsC6 = 2 ∧
    addressesWriteCount demoEventsC6 = 2 ∧
    AMap.find? ((Pair.replay (demoEventsC6.take 5)).wallet.getD {}).publicKeys
      "THOR.RUNE" = some "key1" ∧
    AMap.find? ((Pair.replay demoEventsC6).wallet.getD {}).publicKeys
      "THOR.RUNE" = some "key2" := by
  have s1 : Step [] demoLog1 :=
    Step.createOrMatch [] (.ok demoPlan) uuidPair cmdCreate uuidPair demoCreateEvents
      (by decide) (by decide)
  have s2 : Step demoLog1 demoLog2 :=
    Step.createOrMatch demoLog1 (.ok demoPlan) uuidOther cmdMatch uuidPair demoMatchEvents
      (by decide) (by decide)
  have s3 : Step demoLog2 demoLog3 :=
    Step.confirmWallet demoLog2 cmdConfirmEmpty1 uuidPair
      [.walletAddressConfirmed "THOR.RUNE" "key1" [("THOR.RUNE", ""), ("BTC.BTC", "")]]
      (by decide)
  have s4 : Step demoLog3 demoLog4 :=
    Step.confirmWallet demoLog3 cmdConfirmEmpty2 uuidPair
      [.walletAddressConfirmed "THOR.RUNE" "key2" [("THOR.RUNE", ""), ("BTC.BTC", "")]]
      (by decide)
  refine ⟨Relation.ReflTransGen.tail (Relation.ReflTransGen.tail
      (Relation.ReflTransGen.tail (Relation.ReflTransGen.tail .refl s1) s2) s3) s4,
    by decide, by decide, by decide, by decide, by decide⟩

/-- Witness for the C2 amended theorem: the match branch with a
conflicting save at concrete inputs. -/
theorem createOrMatch_no_retry_witness :
    (cmdMatch.validate = true) ∧
    (containsAsset demoPlan.assets cmdMatch.participantAsset = true) ∧
    createOrMatchPairHandle (.ok demoPlan) (logRows demoLog1) (loadFromLog demoLog1)
      uuidOther (some .concurrencyConflict) cmdMatch =
      .error (.wrap "failed to save pair" (.save .concurrencyConflict)) :=
  ⟨by decide, by decide,
   (createOrMatch_no_retry demoPlan (logRows demoLog1) (loadFromLog demoLog1) uuidOther
     .concurrencyConflict cmdMatch (by decide) (by decide)).2.1 demoWaitingRow []
     (Pair.replay demoCreateEvents) (by decide) (by decide)⟩

/-- Every synchronous run is an asynchronous run in which a projection
tick precedes every command: the synchronous `Step` semantics is the
caught-up fragment of the running system's `AsyncStep` semantics. -/
theorem asyncReachable_of_reachable (log : Log) (hreach : Reachable log) :
    AsyncReachable { log := log, rows := logRows log } := by
  unfold Reachable at hreach
  induction hreach with
  | refl => exact Relation.ReflTransGen.single (AsyncStep.projTick ⟨[], []⟩)
  | @tail b c hr hstep ih =>
    cases hstep with
    | createOrMatch plan newId cmd id events hfresh h =>
      exact Relation.ReflTransGen.tail (Relation.ReflTransGen.tail ih
        (AsyncStep.createOrMatch ⟨b, logRows b⟩ plan newId cmd id events hfresh h))
        (AsyncStep.projTick ⟨logAppend b id events, logRows b⟩)
    | confirmWallet cmd id events h =>
      exact Relation.ReflTransGen.tail (Relation.ReflTransGen.tail ih
        (AsyncStep.confirmWallet ⟨b, logRows b⟩ cmd id events h))
        (AsyncStep.projTick ⟨logAppend b id events, logRows b⟩)
    | setAssurances cmd id events h =>
      exact Relation.ReflTransGen.tail (Relation.ReflTransGen.tail ih
        (AsyncStep.setAssurances ⟨b, logRows b⟩ cmd id events h))
        (AsyncStep.projTick ⟨logAppend b id events, logRows b⟩)
    | addDeposit cmd id events h =>
      exact Relation.ReflTransGen.tail (Relation.ReflTransGen.tail ih
        (AsyncStep.addDeposit ⟨b, logRows b⟩ cmd id events h))
        (AsyncStep.projTick ⟨logAppend b id events, logRows b⟩)
    | signWithdrawal cmd id events h =>
      exact Relation.ReflTransGen.tail (Relation.ReflTransGen.tail ih
        (AsyncStep.signWithdrawal ⟨b, logRows b⟩ cmd id events h))
        (AsyncStep.projTick ⟨logAppend b id events, logRows b⟩)
    | lpPair cmd now id events h =>
      exact Relation.ReflTransGen.tail (Relation.ReflTransGen.tail ih
        (AsyncStep.lpPair ⟨b, logRows b⟩ cmd now id events h))
        (AsyncStep.projTick ⟨logAppend b id events, logRows b⟩)

/-- C5: the claimed invariant — a reachable pair's status only ever
moves forward along waiting, wallet_conformation, assurance, deposit,
pre_sign_withdrawal, lp, withdrawn — fails in the running system. On
the reachable run below a pair is created, matched and confirmed by
both participants, reaching status assurance in the event store, while
the `pairs_query` table still holds the pair's waiting row from the
last projection tick. A further counterpart CreateOrMatchPair is then
served that stale row; the match branch re-checks no status on the
loaded aggregate, so it appends PairMatched and
PairStatusChanged(wallet_conformation), moving the pair's status from
assurance (position 2 of the order) back to wallet_conformation
(position 1). -/
theorem pair_status_regression :
    AsyncReachable demoRegressState ∧
    AsyncStep demoRegressState demoRegressState' ∧
    (Pair.replay (AMap.findD demoRegressState.log uuidPair [])).status
      = PairStatusAssurance ∧
    (Pair.replay (AMap.findD demoRegressState'.log uuidPair [])).status
      = PairStatusWalletConformation ∧
    statusIdx PairStatusAssurance = some 2 ∧
    statusIdx PairStatusWalletConformation = some 1 := by
  have a1 : AsyncStep ⟨[], []⟩ ⟨demoLog1, []⟩ :=
    AsyncStep.createOrMatch ⟨[], []⟩ (.ok demoPlan) uuidPair cmdCreate uuidPair
      demoCreateEvents (by decide) (by decide)
  have a2 : AsyncStep ⟨demoLog1, []⟩ ⟨demoLog1, logRows demoLog1⟩ :=
    AsyncStep.projTick ⟨demoLog1, []⟩
  have a3 : AsyncStep ⟨demoLog1, logRows demoLog1⟩ ⟨demoLog2, logRows demoLog1⟩ :=
    AsyncStep.createOrMatch ⟨demoLog1, logRows demoLog1⟩ (.ok demoPlan) uuidOther
      cmdMatch uuidPair demoMatchEvents (by decide) (by decide)
  have a4 : AsyncStep ⟨demoLog2, logRows demoLog1⟩ ⟨demoLog3, logRows demoLog1⟩ :=
    AsyncStep.confirmWallet ⟨demoLog2, logRows demoLog1⟩ cmdConfirmEmpty1 uuidPair
      [.walletAddressConfirmed "THOR.RUNE" "key1" [("THOR.RUNE", ""), ("BTC.BTC", "")]]
      (by decide)
  have a5 : AsyncStep ⟨demoLog3, logRows demoLog1⟩ demoRegressState :=
    AsyncStep.confirmWallet ⟨demoLog3, logRows demoLog1⟩ cmdConfirmBtc uuidPair
      [.walletAddressConfirmed "BTC.BTC" "keyB" [("THOR.RUNE", ""), ("BTC.BTC", "")],
       .pairStatusChanged PairStatusAssurance]
      (by decide)
  refine ⟨Relation.ReflTransGen.tail (Relation.ReflTransGen.tail
      (Relation.ReflTransGen.tail (Relation.ReflTransGen.tail
        (Relation.ReflTransGen.single a1) a2) a3) a4) a5,
    AsyncStep.createOrMatch demoRegressState (.ok demoPlan) uuidOther cmdMatch2 uuidPair
      [.pairMatched "thorAddr2" "" "" "",
       .pairStatusChanged PairStatusWalletConformation]
      (by decide) (by decide),
    by decide, by decide, by decide, by decide⟩

end CoDefi
